import Mathlib

/-!
Verification model of the ruvltra-mcp-server execution core.

The definitions below are shallow embeddings of the TypeScript sources:
  * `SonaEngine` (pattern memory): quality scoring, per-key pattern updates,
    consolidation, and loading of persisted state from disk.
  * `WorkerPool`: task admission with queue backpressure, dispatch, per-task
    timeout/cancellation, settlement, and the pool counters, modelled as a
    transition system over explicit events.
  * `InferenceEngine`: the ranked backend fallback chain with the mock
    backend, and the HTTP retry loop with its circuit breaker.
  * The worker-pool constructor's forced single-worker mode and scaling.

Numbers that are JavaScript floats are modelled as rationals (`ℚ`); the
arithmetic appearing in the sources (+, -, *, /, min, max, comparisons) is
exact on the values involved, so `ℚ` is a faithful carrier. Millisecond
clock values are modelled as `ℚ` or `Nat` parameters (`now`); wall-clock
progression itself is external input. I/O (file system, HTTP wire, logger)
is modelled by explicit parameters describing its outcome.
-/

namespace Ruvltra

/-- `clamp` from worker-pool.ts / inference-engine.ts / defaults.ts:
`Math.min(Math.max(value, min), max)`, on rationals. -/
def clampQ (value lo hi : ℚ) : ℚ :=
  min (max value lo) hi

/-- The same `clamp` helper on naturals (used for worker counts). -/
def clampNat (value lo hi : Nat) : Nat :=
  min (max value lo) hi

/-- The same `clamp` helper on integers (used for `Math.round`ed targets). -/
def clampInt (value lo hi : Int) : Int :=
  min (max value lo) hi

/-- JavaScript truthiness of an optional string (`Boolean(x)` / `if (x)`):
`undefined` and the empty string are falsy. -/
def jsTruthyStr (o : Option String) : Bool :=
  match o with
  | some s => !s.isEmpty
  | none => false

/-- `TaskType` from types.ts. -/
inductive TaskType
  | generate
  | review
  | refactor
  | explain
  | test
  | fix
  | complete
  | translate
deriving DecidableEq, Repr

/-- The string value of a `TaskType` (the TypeScript type is a string union). -/
def taskTypeStr : TaskType → String
  | .generate => "generate"
  | .review => "review"
  | .refactor => "refactor"
  | .explain => "explain"
  | .test => "test"
  | .fix => "fix"
  | .complete => "complete"
  | .translate => "translate"

/-! ## SonaEngine (sona-engine.ts): pattern memory -/

/-- `PatternState` from sona-engine.ts. `lastSeenAt` is a millisecond
timestamp. -/
structure PatternState where
  key : String
  score : ℚ
  importance : ℚ
  hits : Nat
  successes : Nat
  lastSeenAt : ℚ
deriving DecidableEq, Repr

/-- `RecordInput` from sona-engine.ts. -/
structure RecordInput where
  taskType : TaskType
  instruction : String
  response : String
  success : Bool
  latencyMs : ℚ
  language : Option String
  filePath : Option String
  promptTokens : Option ℚ
  completionTokens : Option ℚ
deriving DecidableEq, Repr

def CONSOLIDATE_INTERVAL : Nat := 20

def MAX_HINTS : Nat := 3

def MAX_PATTERNS : Nat := 600

/-- The mutable scalar state of one `SonaEngine` plus its pattern map.
The `Map<string, PatternState>` is modelled as a list in insertion order
(JavaScript `Map` iteration order). -/
structure SonaState where
  patterns : List PatternState
  interactions : Nat
  successes : Nat
  consolidations : Nat
  lastConsolidatedAt : Option ℚ
deriving DecidableEq, Repr

def initialSonaState : SonaState :=
  { patterns := [], interactions := 0, successes := 0, consolidations := 0,
    lastConsolidatedAt := none }

/-- `this.patterns.get(key)` on the list model. -/
def lookupPattern (ps : List PatternState) (key : String) : Option PatternState :=
  ps.find? (fun p => p.key == key)

/-- `this.patterns.set(key, p)` on the list model: replace in place if the
key exists, else append (JavaScript `Map.set` keeps the original position of
an existing key). -/
def setPattern (ps : List PatternState) (p : PatternState) : List PatternState :=
  if ps.any (fun q => q.key == p.key) then
    ps.map (fun q => if q.key == p.key then p else q)
  else
    ps ++ [p]

/-- `SonaEngine.calculateQuality` (sona-engine.ts lines 344-354). -/
def calculateQuality (input : RecordInput) : ℚ :=
  let base : ℚ := if input.success then 0.8 else 0.2
  let latencyPenalty : ℚ := min (input.latencyMs / 12000) 0.4
  let tokenBonus : ℚ :=
    match input.completionTokens with
    | some c => min (c / 1600) 0.15
    | none => 0
  let promptPenalty : ℚ :=
    match input.promptTokens with
    | some p => min (p / 8000) 0.08
    | none => 0
  clampQ (base + tokenBonus - latencyPenalty - promptPenalty) 0.05 1

/-- The body of `SonaEngine.updatePattern` (lines 356-380) acting on the
looked-up entry: `this.patterns.get(key) ?? default`, then the counter,
score and importance updates. -/
def updatePatternEntry (existing : Option PatternState) (key : String)
    (quality : ℚ) (success : Bool) (now : ℚ) : PatternState :=
  let pattern := existing.getD
    { key := key, score := 0.5, importance := 0.2, hits := 0, successes := 0,
      lastSeenAt := now }
  let pattern :=
    { pattern with
      hits := pattern.hits + 1,
      successes := pattern.successes + (if success then 1 else 0),
      lastSeenAt := now }
  let plasticity := max 0.05 (1 - pattern.importance)
  let alpha := 0.28 * plasticity
  let score := pattern.score * (1 - alpha) + quality * alpha
  let stabilityGain : ℚ := if success then 0.06 else 0.01
  let importance := clampQ (pattern.importance * 0.97 + stabilityGain) 0.05 0.99
  { pattern with score := score, importance := importance }

/-- `SonaEngine.updatePattern` at the state level: look up, update, store. -/
def updatePattern (s : SonaState) (key : String) (quality : ℚ) (success : Bool)
    (now : ℚ) : SonaState :=
  let entry := updatePatternEntry (lookupPattern s.patterns key) key quality success now
  { s with patterns := setPattern s.patterns entry }

/-- `[a-z0-9_]` membership after `toLowerCase`, the word characters of the
keyword regex in `extractKeywords`. -/
def isKeywordChar (c : Char) : Bool :=
  c.isLower || c.isDigit || c == '_'

/-- First-seen-order deduplication, the semantics of
`Array.from(new Set(words))` in JavaScript. -/
def dedupFirstAux : List String → List String → List String
  | [], _ => []
  | a :: l, seen =>
    if a ∈ seen then dedupFirstAux l seen else a :: dedupFirstAux l (a :: seen)

def dedupFirst (l : List String) : List String :=
  dedupFirstAux l []

/-- `extractKeywords` (sona-engine.ts): lowercase, split on `[^a-z0-9_]+`,
keep words of length >= 4, dedup in first-seen order, take 6. -/
def extractKeywords (input : String) : List String :=
  let words :=
    (input.toLower.split (fun c => !(isKeywordChar c))).filter
      (fun w => 4 ≤ w.length)
  (dedupFirst words).take 6

/-- `response.includes(needle)` from JavaScript. -/
def strIncludes (s needle : String) : Bool :=
  s.containsSubstr needle.toSubstring

/-- `SonaEngine.extractFileExtension`: split on `'.'`; if fewer than two
segments, `undefined`; else the last segment. -/
def extractFileExtension (filePath : String) : Option String :=
  let segments := filePath.split (fun c => c == '.')
  if segments.length < 2 then none else segments.getLast?

/-- `SonaEngine.extractPatternKeys` (sona-engine.ts lines 314-342). The
`Set<string>` is modelled as insertion-ordered first-seen deduplication.
`if (input.language)` and `if (extension)` are JavaScript truthiness tests,
so empty strings contribute no key. -/
def extractPatternKeys (input : RecordInput) : List String :=
  let keys := ["task:" ++ taskTypeStr input.taskType, "task:general"]
  let keys := keys ++
    (if jsTruthyStr input.language then
      ["lang:" ++ (input.language.getD "").toLower]
     else [])
  let keys := keys ++
    (match input.filePath with
     | some fp =>
       if jsTruthyStr (some fp) then
         match extractFileExtension fp with
         | some ext => if ext.isEmpty then [] else ["fileext:" ++ ext.toLower]
         | none => []
       else []
     | none => [])
  let keys := keys ++ (extractKeywords input.instruction).map (fun w => "kw:" ++ w)
  let keys := keys ++
    (if strIncludes input.response "try" && strIncludes input.response "catch" then
      ["pattern:error-handling"]
     else [])
  let keys := keys ++
    (if strIncludes input.response "interface " || strIncludes input.response "type " then
      ["pattern:typed-api"]
     else [])
  dedupFirst keys

/-- The value `0.65 * score + 0.35 * importance` used by the consolidation
sweep. -/
def sweepValue (p : PatternState) : ℚ :=
  p.score * 0.65 + p.importance * 0.35

/-- The ranking value `0.7 * score + 0.3 * importance` used by eviction and
hint selection. -/
def rankValue (p : PatternState) : ℚ :=
  p.score * 0.7 + p.importance * 0.3

/-- The deletion sweep of `SonaEngine.consolidate`: delete a pattern when
(`hits <= 1` and age > 30 min) or (value < 0.22 and age > 10 min). -/
def consolidateSweep (now : ℚ) (ps : List PatternState) : List PatternState :=
  ps.filter (fun p =>
    let ageMinutes := (now - p.lastSeenAt) / 60000
    !(decide (p.hits ≤ 1 ∧ 30 < ageMinutes) ||
      decide (sweepValue p < 0.22 ∧ 10 < ageMinutes)))

/-- The eviction step of `SonaEngine.consolidate`: if more than
`MAX_PATTERNS` patterns remain, sort ascending by `rankValue`, take the
worst `size - MAX_PATTERNS`, and delete those keys. -/
def evictWorst (ps : List PatternState) : List PatternState :=
  if MAX_PATTERNS < ps.length then
    let sorted := ps.mergeSort (fun a b => decide (rankValue a ≤ rankValue b))
    let removeKeys := (sorted.take (ps.length - MAX_PATTERNS)).map (fun p => p.key)
    ps.filter (fun p => !(removeKeys.contains p.key))
  else ps

/-- `SonaEngine.consolidate` (sona-engine.ts lines 382-416); the trailing
`flush()` is disk I/O and does not change in-memory state. -/
def consolidate (s : SonaState) (now : ℚ) : SonaState :=
  let s :=
    { s with consolidations := s.consolidations + 1, lastConsolidatedAt := some now }
  let swept := consolidateSweep now s.patterns
  { s with patterns := evictWorst swept }

/-- `SonaEngine.recordInteraction` (sona-engine.ts lines 238-260); `enabled`
is `options.enabled`; the `flush()` at a persist interval is disk I/O and
does not change in-memory state. -/
def recordInteraction (enabled : Bool) (s : SonaState) (input : RecordInput)
    (now : ℚ) : SonaState :=
  if !enabled then s
  else
    let s :=
      { s with
        interactions := s.interactions + 1,
        successes := s.successes + (if input.success then 1 else 0) }
    let keys := extractPatternKeys input
    let quality := calculateQuality input
    let s := keys.foldl (fun acc key => updatePattern acc key quality input.success now) s
    if s.interactions % CONSOLIDATE_INTERVAL == 0 then consolidate s now else s

/-! ### Persisted state loading (sona-engine.ts `loadStateFromDisk`) -/

/-- A JSON value as far as the loader's `typeof` checks distinguish them. -/
inductive JVal
  | jnum (q : ℚ)
  | jstr (s : String)
  | jother
deriving DecidableEq, Repr

/-- One entry of the persisted `patterns` array, before type checking. -/
structure RawPattern where
  key : JVal
  score : JVal
  importance : JVal
  hits : JVal
  successes : JVal
  lastSeenAt : JVal
deriving DecidableEq, Repr

/-- The outcome of reading and `JSON.parse`-ing the state file. The
`patterns` component is `none` when `Array.isArray(parsed.patterns)` fails.
Counter fields hold `none` when absent (`?? 0` applies); integer-valued
files are the ones the program itself writes. -/
inductive PersistedFile
  | missing
  | unreadable
  | parsed (version : JVal) (patterns : Option (List RawPattern))
      (interactions successes consolidations : Option Int)
      (lastConsolidatedAt : Option ℚ)
deriving DecidableEq, Repr

/-- `Math.max(0, Math.floor(q))` producing a natural number. -/
def floorNonneg (q : ℚ) : Nat :=
  (max 0 ⌊q⌋).toNat

/-- The per-record body of the loader's `for` loop: the `typeof` checks
(skip the record unless key is a string and all five numbers are numbers),
then the clamping. Note the source clamps `importance` into
`[0.01, 0.99]`. -/
def loadPattern (raw : RawPattern) : Option PatternState :=
  match raw.key, raw.score, raw.importance, raw.hits, raw.successes, raw.lastSeenAt with
  | .jstr key, .jnum score, .jnum importance, .jnum hits, .jnum successes,
      .jnum lastSeenAt =>
    some
      { key := key,
        score := clampQ score 0.01 1,
        importance := clampQ importance 0.01 0.99,
        hits := floorNonneg hits,
        successes := floorNonneg successes,
        lastSeenAt := (floorNonneg lastSeenAt : ℚ) }
  | _, _, _, _, _, _ => none

/-- `SonaEngine.loadStateFromDisk` (sona-engine.ts lines 487-530).
`stateFileConfigured` models `this.stateFilePath` being set. -/
def loadStateFromDisk (enabled stateFileConfigured : Bool) (file : PersistedFile)
    (s : SonaState) : SonaState :=
  if !enabled || !stateFileConfigured then s
  else
    match file with
    | .missing => s
    | .unreadable => s
    | .parsed version patternsOpt interactions successes consolidations
        lastConsolidatedAt =>
      if version ≠ JVal.jnum 1 then s
      else
        match patternsOpt with
        | none => s
        | some raws =>
          let s :=
            { s with
              interactions := (max 0 (interactions.getD 0)).toNat,
              successes := (max 0 (successes.getD 0)).toNat,
              consolidations := (max 0 (consolidations.getD 0)).toNat,
              lastConsolidatedAt := lastConsolidatedAt }
          let loaded :=
            raws.foldl
              (fun acc raw =>
                match loadPattern raw with
                | some p => setPattern acc p
                | none => acc)
              s.patterns
          { s with patterns := loaded }

/-! ## WorkerPool (worker-pool.ts): admission, dispatch, settlement

The pool is modelled as a transition system. The JavaScript runtime is
single-threaded, so each handler (the body of `executeTask`, the timeout
callback, the `.then`/`.catch`/`.finally` continuations of the backend
promise, `cancelTask`, `shutdown`) runs atomically; a run of the pool is a
sequence of such handler executions. One-shot facts of the runtime appear
as enabledness guards of the step relation: a `setTimeout` callback fires
at most once and not after `clearTimeout` (`timerArmed`), and the backend
promise settles at most once (`backendDone`).

The value delivered to the caller by `resolve`/`reject` is recorded by
appending to `resolutions`; the counters of worker nodes that claims do not
mention (`activeTasks`, `inFlight`, `lastUsedAt`) and the SONA recording
calls are omitted, as is the worker set itself (an idle worker being
available merely enables a dispatch step). `completedTasks` is the sum of
`worker.completedTasks` over every worker ever created. -/

/-- The kind of value passed to `resolve`/`reject` when a task settles. -/
inductive SettlementKind
  | success
  | timeoutErr
  | shutdownCancel
  | backendErr
  | backendCancel
deriving DecidableEq, Repr

/-- `QueueItem` bookkeeping from worker-pool.ts, plus runtime facts:
`timerArmed` (the timeout handle exists and was neither fired nor
cleared), `inPending`/`inRunning` (membership in `pendingByTaskId` /
`runningByTaskId`), `backendDone` (the engine promise has settled),
`resolutions` (every value ever passed to this item's `resolve` or
`reject`, in order). -/
structure PoolItem where
  taskId : Nat
  settled : Bool
  timedOut : Bool
  started : Bool
  timerArmed : Bool
  inPending : Bool
  inRunning : Bool
  backendDone : Bool
  resolutions : List SettlementKind
deriving DecidableEq, Repr

/-- Pool state: admitted items (indexed by `taskId`, in admission order),
the FIFO queue of task ids, and the pool counters. -/
structure PoolState where
  items : List PoolItem
  queue : List Nat
  submittedTasks : Nat
  completedTasks : Nat
  failedTasks : Nat
  cancelledTasks : Nat
  timedOutTasks : Nat
  rejectedTasks : Nat
deriving DecidableEq, Repr

/-- The configuration fields `executeTask` reads. -/
structure PoolConfig where
  queueMaxLength : Nat
  taskTimeoutMs : Nat
deriving DecidableEq, Repr

def initPool : PoolState :=
  { items := [], queue := [], submittedTasks := 0, completedTasks := 0,
    failedTasks := 0, cancelledTasks := 0, timedOutTasks := 0, rejectedTasks := 0 }

/-- `WorkerPool.finishWithSuccess` acting on the item: if already settled,
return unchanged; else latch `settled`, clear the timeout handle, and
resolve. -/
def finishWithSuccessItem (it : PoolItem) : PoolItem :=
  if it.settled then it
  else
    { it with
      settled := true,
      timerArmed := false,
      resolutions := it.resolutions ++ [SettlementKind.success] }

/-- `WorkerPool.finishWithError` acting on the item, with the kind of the
rejection value. -/
def finishWithErrorItem (kind : SettlementKind) (it : PoolItem) : PoolItem :=
  if it.settled then it
  else
    { it with
      settled := true,
      timerArmed := false,
      resolutions := it.resolutions ++ [kind] }

/-- The admission test at the top of `WorkerPool.executeTask`:
`this.queue.length >= this.config.queueMaxLength`. -/
def submitRejects (cfg : PoolConfig) (s : PoolState) : Bool :=
  decide (cfg.queueMaxLength ≤ s.queue.length)

/-- `Math.max(50, Math.ceil(taskTimeoutMs / 4))` from the
`QueueOverflowError` message of `executeTask`. -/
def suggestedRetryMs (cfg : PoolConfig) : Nat :=
  max 50 ((cfg.taskTimeoutMs + 3) / 4)

/-- `WorkerPool.executeTask` (worker-pool.ts lines 107-153): reject with
`QueueOverflowError` when the queue is full (bumping only `rejectedTasks`);
otherwise bump `submittedTasks`, create the queue item (arming the timeout
when `timeoutMs > 0`), index it in `pendingByTaskId` and append it to the
queue. The scale-up check and the dispatch pass that follow are separate
steps of the system. -/
def applySubmit (cfg : PoolConfig) (hasTimeout : Bool) (s : PoolState) : PoolState :=
  if submitRejects cfg s then
    { s with rejectedTasks := s.rejectedTasks + 1 }
  else
    let tid := s.items.length
    let item : PoolItem :=
      { taskId := tid, settled := false, timedOut := false, started := false,
        timerArmed := hasTimeout, inPending := true, inRunning := false,
        backendDone := false, resolutions := [] }
    { s with
      submittedTasks := s.submittedTasks + 1,
      items := s.items ++ [item],
      queue := s.queue ++ [tid] }

/-- One iteration of the `while` loop in `WorkerPool.dispatch`, taken when
an idle worker is available: pop the queue head; a settled head is dropped
(`continue`); otherwise the item moves from `pendingByTaskId` to
`runningByTaskId` and is started on the worker (`runOnWorker` entry). -/
def applyDispatchOne (s : PoolState) : PoolState :=
  match s.queue with
  | [] => s
  | tid :: rest =>
    match s.items[tid]? with
    | none => { s with queue := rest }
    | some it =>
      if it.settled then { s with queue := rest }
      else
        { s with
          queue := rest,
          items := s.items.set tid
            { it with started := true, inPending := false, inRunning := true } }

/-- `WorkerPool.cancelTask` (worker-pool.ts lines 458-475) with the kind of
the reason error. A pending task is removed from the pending index and the
queue; a running task keeps its `runningByTaskId` entry (the backend's
`.finally` removes it). The `controller.abort` call only influences the
backend, whose eventual rejection is a separate `backendFail` step. -/
def applyCancelTask (s : PoolState) (tid : Nat) (kind : SettlementKind) : PoolState :=
  match s.items[tid]? with
  | none => s
  | some it =>
    if it.inPending then
      let newItem := finishWithErrorItem kind { it with inPending := false }
      { s with
        cancelledTasks := s.cancelledTasks + 1,
        queue := s.queue.erase tid,
        items := s.items.set tid newItem }
    else if it.inRunning then
      { s with
        cancelledTasks := s.cancelledTasks + 1,
        items := s.items.set tid (finishWithErrorItem kind it) }
    else s

/-- The timeout callback armed by `executeTask` (worker-pool.ts lines
135-145): bump `timedOutTasks`, mark the item timed out, and cancel the
task with a `TaskTimeoutError`. Firing consumes the one-shot timer. -/
def applyTimerFire (s : PoolState) (tid : Nat) : PoolState :=
  match s.items[tid]? with
  | none => s
  | some it =>
    let s1 :=
      { s with
        timedOutTasks := s.timedOutTasks + 1,
        items := s.items.set tid { it with timedOut := true, timerArmed := false } }
    applyCancelTask s1 tid SettlementKind.timeoutErr

/-- The `.then` handler of `runOnWorker` followed by `.finally`
(worker-pool.ts lines 283-306, 330-337): if the item settled while the
backend ran, discard the result; else bump the worker's `completedTasks`
and settle with the result. `.finally` removes the running-map entry. -/
def applyBackendSucceed (s : PoolState) (tid : Nat) : PoolState :=
  match s.items[tid]? with
  | none => s
  | some it =>
    if it.settled then
      { s with items := s.items.set tid { it with backendDone := true, inRunning := false } }
    else
      let newItem :=
        { (finishWithSuccessItem it) with backendDone := true, inRunning := false }
      { s with
        completedTasks := s.completedTasks + 1,
        items := s.items.set tid newItem }

/-- The `.catch` handler of `runOnWorker` followed by `.finally`
(worker-pool.ts lines 307-337): if the item settled, discard; else classify
the error (`TaskCancelledError`/`TaskTimeoutError` instances bump
`cancelledTasks`, anything else bumps `failedTasks`) and settle with it. -/
def applyBackendFail (s : PoolState) (tid : Nat) (cancelKind : Bool) : PoolState :=
  match s.items[tid]? with
  | none => s
  | some it =>
    if it.settled then
      { s with items := s.items.set tid { it with backendDone := true, inRunning := false } }
    else
      let kind :=
        if cancelKind then SettlementKind.backendCancel else SettlementKind.backendErr
      let newItem :=
        { (finishWithErrorItem kind it) with backendDone := true, inRunning := false }
      if cancelKind then
        { s with
          cancelledTasks := s.cancelledTasks + 1,
          items := s.items.set tid newItem }
      else
        { s with
          failedTasks := s.failedTasks + 1,
          items := s.items.set tid newItem }

/-- The per-item effect of `WorkerPool.shutdown`: every item still indexed
in `pendingByTaskId` or `runningByTaskId` is rejected with a
`TaskCancelledError`, then both maps are cleared. No counter changes. -/
def shutdownItem (it : PoolItem) : PoolItem :=
  if it.inPending || it.inRunning then
    { (finishWithErrorItem SettlementKind.shutdownCancel it) with
      inPending := false, inRunning := false }
  else it

/-- `WorkerPool.shutdown` (worker-pool.ts lines 225-240): reject everything
pending or running, clear both indexes and the queue. -/
def applyShutdown (s : PoolState) : PoolState :=
  { s with items := s.items.map shutdownItem, queue := [] }

/-- One atomic handler execution of the pool. Guards record one-shot
runtime facts: a timer fires only while armed; the backend promise of a
task settles once, and only for a task that was actually started. -/
inductive PoolStep (cfg : PoolConfig) : PoolState → PoolState → Prop
  | submit (s : PoolState) (hasTimeout : Bool) :
      PoolStep cfg s (applySubmit cfg hasTimeout s)
  | dispatchOne (s : PoolState) :
      PoolStep cfg s (applyDispatchOne s)
  | timerFire (s : PoolState) (tid : Nat) (it : PoolItem)
      (hget : s.items[tid]? = some it) (harmed : it.timerArmed = true) :
      PoolStep cfg s (applyTimerFire s tid)
  | backendSucceed (s : PoolState) (tid : Nat) (it : PoolItem)
      (hget : s.items[tid]? = some it) (hstarted : it.started = true)
      (hnotdone : it.backendDone = false) :
      PoolStep cfg s (applyBackendSucceed s tid)
  | backendFail (s : PoolState) (tid : Nat) (cancelKind : Bool) (it : PoolItem)
      (hget : s.items[tid]? = some it) (hstarted : it.started = true)
      (hnotdone : it.backendDone = false) :
      PoolStep cfg s (applyBackendFail s tid cancelKind)
  | shutdown (s : PoolState) :
      PoolStep cfg s (applyShutdown s)

/-- States reachable from the freshly constructed pool. -/
inductive PoolReachable (cfg : PoolConfig) : PoolState → Prop
  | init : PoolReachable cfg initPool
  | step {s t : PoolState} (h : PoolReachable cfg s) (hs : PoolStep cfg s t) :
      PoolReachable cfg t

/-- Number of items whose single resolution is of the given kind. -/
def resCount (s : PoolState) (k : SettlementKind) : Nat :=
  s.items.countP (fun it => it.resolutions = [k])

/-- Number of settled items. -/
def settledCount (s : PoolState) : Nat :=
  s.items.countP (fun it => it.settled)

/-! ## InferenceEngine (inference-engine.ts): HTTP circuit breaker -/

/-- The three circuit states; `opened` renders the source's `'open'`
(a Lean keyword). -/
inductive CircuitPhase
  | closed
  | opened
  | halfOpen
deriving DecidableEq, Repr

/-- `HttpCircuitState` from inference-engine.ts. Timestamps are
millisecond naturals. -/
structure HttpCircuitState where
  state : CircuitPhase
  consecutiveFailures : Nat
  openedAt : Option Nat
  nextAttemptAt : Option Nat
deriving DecidableEq, Repr

def initialHttpCircuit : HttpCircuitState :=
  { state := CircuitPhase.closed, consecutiveFailures := 0, openedAt := none,
    nextAttemptAt := none }

/-- `InferenceEngine.ensureHttpCircuitAllowsAttempt` (inference-engine.ts
lines 798-809): not `open` passes through; `open` with
`nextAttemptAt <= now` becomes `half_open` and passes; otherwise the call
throws with the remaining wait (`Math.max(0, nextAttemptAt - now)`). -/
def ensureHttpCircuitAllowsAttempt (now : Nat) (c : HttpCircuitState) :
    Except Nat HttpCircuitState :=
  if c.state ≠ CircuitPhase.opened then Except.ok c
  else if c.nextAttemptAt.getD 0 ≤ now then
    Except.ok { c with state := CircuitPhase.halfOpen }
  else Except.error (c.nextAttemptAt.getD 0 - now)

/-- `InferenceEngine.recordHttpSuccess` (lines 811-817). -/
def recordHttpSuccess (_c : HttpCircuitState) : HttpCircuitState :=
  { state := CircuitPhase.closed, consecutiveFailures := 0, openedAt := none,
    nextAttemptAt := none }

/-- `InferenceEngine.recordHttpFailure` (lines 819-840): bump the
consecutive-failure counter; open at the threshold with a fresh cooldown;
an untripped `half_open` failure also reopens with a fresh cooldown. -/
def recordHttpFailure (threshold cooldownMs now : Nat) (c : HttpCircuitState) :
    HttpCircuitState :=
  let c := { c with consecutiveFailures := c.consecutiveFailures + 1 }
  if threshold ≤ c.consecutiveFailures then
    { c with
      state := CircuitPhase.opened,
      openedAt := some now,
      nextAttemptAt := some (now + cooldownMs) }
  else if c.state = CircuitPhase.halfOpen then
    { c with
      state := CircuitPhase.opened,
      openedAt := some now,
      nextAttemptAt := some (now + cooldownMs) }
  else c

/-- The observable outcome of one wire attempt inside `generateWithHttp`:
success, or a failure that `isRetryableHttpError` classifies. (An abort of
the task's own token rethrows out of the loop and touches no circuit
state; that path is outside this model.) -/
inductive HttpAttemptOutcome
  | success
  | failure (retryable : Bool)
deriving DecidableEq, Repr

/-- Result of the retry loop: final circuit state, number of wire attempts
actually issued (`fetch` calls), and whether the call returned text. -/
structure HttpLoopResult where
  circuit : HttpCircuitState
  wireAttempts : Nat
  succeeded : Bool
deriving DecidableEq, Repr

/-- The `for (attempt = 0; attempt <= maxRetries; ...)` loop of
`InferenceEngine.generateWithHttp` (lines 233-304), with the outcome of
the attempt at each index given by `outcomes`. On success the loop records
a circuit success and returns. On failure it computes
`canRetry = attempt < maxRetries && isRetryableHttpError(lastError)`;
when `canRetry` it backs off and continues; otherwise it calls
`recordHttpFailure()` — and, the `catch` block having no `break` or
`throw` there, the `for` loop then proceeds to the next attempt anyway.
`remaining` counts the iterations the `for` header still allows. -/
def httpRetryLoop (threshold cooldownMs now maxRetries : Nat)
    (outcomes : Nat → HttpAttemptOutcome) :
    Nat → Nat → HttpCircuitState → Nat → HttpLoopResult
  | 0, _, c, wire => { circuit := c, wireAttempts := wire, succeeded := false }
  | remaining + 1, attempt, c, wire =>
    match outcomes attempt with
    | HttpAttemptOutcome.success =>
      { circuit := recordHttpSuccess c, wireAttempts := wire + 1, succeeded := true }
    | HttpAttemptOutcome.failure retryable =>
      if decide (attempt < maxRetries) && retryable then
        httpRetryLoop threshold cooldownMs now maxRetries outcomes
          remaining (attempt + 1) c (wire + 1)
      else
        httpRetryLoop threshold cooldownMs now maxRetries outcomes
          remaining (attempt + 1)
          (recordHttpFailure threshold cooldownMs now c) (wire + 1)

/-- `InferenceEngine.generateWithHttp` as seen by the circuit breaker:
the circuit gate, then the retry loop over `maxRetries + 1` allowed
iterations starting at attempt 0 with no wire attempts issued. -/
def generateWithHttpCall (threshold cooldownMs now maxRetries : Nat)
    (outcomes : Nat → HttpAttemptOutcome) (c : HttpCircuitState) :
    Except Nat HttpLoopResult :=
  match ensureHttpCircuitAllowsAttempt now c with
  | Except.error waitMs => Except.error waitMs
  | Except.ok c1 =>
    Except.ok (httpRetryLoop threshold cooldownMs now maxRetries outcomes
      (maxRetries + 1) 0 c1 0)

/-! ## InferenceEngine (inference-engine.ts): backend fallback chain -/

/-- `InferenceBackend` from types.ts. -/
inductive Backend
  | http
  | llama
  | ruvllm
  | mock
deriving DecidableEq, Repr

/-- `BACKEND_ORDER` from inference-engine.ts. -/
def BACKEND_ORDER : List Backend :=
  [Backend.http, Backend.llama, Backend.ruvllm, Backend.mock]

/-- The `backendReady` record: the three real backends get their flags at
`initialize()`; the `mock` entry is initialized `true` and never
reassigned. -/
structure BackendReady where
  http : Bool
  llama : Bool
  ruvllm : Bool
deriving DecidableEq, Repr

def backendIsReady (r : BackendReady) : Backend → Bool
  | Backend.http => r.http
  | Backend.llama => r.llama
  | Backend.ruvllm => r.ruvllm
  | Backend.mock => true

/-- The fields of `GenerateRequest` (types.ts) that prompt construction and
the mock backend read. `maxTokens`, `temperature` and `timeoutMs` only
parameterize real backends and the pool deadline. -/
structure GenerateRequest where
  taskType : TaskType
  instruction : String
  context : Option String
  language : Option String
  filePath : Option String
deriving DecidableEq, Repr

/-- `InferenceResult` (types.ts) as far as the claims read it; `latencyMs`
and the token-usage fields are wall-clock measurements left out of the
model. -/
structure InferenceResult where
  text : String
  backend : Backend
  model : String
deriving DecidableEq, Repr

/-- Failure of one backend attempt: the task token was aborted, or the
backend failed with a message. -/
inductive GenError
  | aborted
  | backendFailure (message : String)
deriving DecidableEq, Repr

/-- `array.join('\n')` from JavaScript. -/
def joinLines : List String → String
  | [] => ""
  | [a] => a
  | a :: rest => a ++ "\n" ++ joinLines rest

/-- `InferenceEngine.buildPrompt` (inference-engine.ts lines 717-739).
`if (request.language)` / `if (request.filePath)` / `if (request.context)`
are JavaScript truthiness tests. -/
def buildPrompt (req : GenerateRequest) : String :=
  let sections := ["Task: " ++ taskTypeStr req.taskType]
  let sections := sections ++
    (if jsTruthyStr req.language then ["Language: " ++ req.language.getD ""] else [])
  let sections := sections ++
    (if jsTruthyStr req.filePath then ["File: " ++ req.filePath.getD ""] else [])
  let sections := sections ++ ["", "Instruction:", req.instruction.trim]
  let sections := sections ++
    (if jsTruthyStr req.context then
      ["", "Context:", (req.context.getD "").trim]
     else [])
  let sections := sections ++
    ["", "Return only the final answer with clear, practical output."]
  joinLines sections

/-- The deterministic text assembled by `InferenceEngine.generateWithMock`
(inference-engine.ts lines 452-471). -/
def mockResponseText (req : GenerateRequest) (prompt : String) : String :=
  joinLines
    [ "// Mock backend response (" ++ taskTypeStr req.taskType ++ ")",
      "// Instruction: " ++ req.instruction.take 120,
      (if jsTruthyStr req.context then
        "// Context length: " ++ toString (req.context.getD "").length
       else "// Context length: 0"),
      "",
      "/*",
      "  This is mock output because no inference backend is currently available.",
      "  Configure one of the following for real generations:",
      "  - RUVLTRA_HTTP_ENDPOINT",
      "  - RUVLTRA_MODEL_PATH with node-llama-cpp support",
      "  - @ruvector/ruvllm runtime support",
      "*/",
      "",
      joinLines ((prompt.split (fun c => c == '\n')).take 8) ]

/-- `InferenceEngine.generateWithMock` (lines 441-479): abort check, the
jittered sleep (honouring the token; pure timing otherwise), then the
deterministic result. With an untripped token it always succeeds. -/
def generateWithMock (aborted : Bool) (req : GenerateRequest) (prompt : String) :
    Except GenError InferenceResult :=
  if aborted then Except.error GenError.aborted
  else
    Except.ok
      { text := mockResponseText req prompt, backend := Backend.mock,
        model := "mock://ruvltra" }

/-- One backend attempt inside `generate`'s fallback loop: the mock
adapter is the transcription above; the other three adapters' behaviour is
external input (`external`). -/
def attemptBackend (externalOutcome : Backend → Except GenError InferenceResult)
    (aborted : Bool) (req : GenerateRequest) (prompt : String) :
    Backend → Except GenError InferenceResult
  | Backend.mock => generateWithMock aborted req prompt
  | b => externalOutcome b

/-- The `for (const backend of attemptBackends)` loop of
`InferenceEngine.generate` (lines 120-143): skip unready backends, return
the first success, remember the last error; after the loop, throw the last
error if any, else fall back to the mock. -/
def generateLoop (ready : BackendReady)
    (attempt : Backend → Except GenError InferenceResult)
    (aborted : Bool) (req : GenerateRequest) (prompt : String) :
    List Backend → Option GenError → Except GenError InferenceResult
  | [], some e => Except.error e
  | [], none => generateWithMock aborted req prompt
  | b :: rest, lastError =>
    if backendIsReady ready b then
      match attempt b with
      | Except.ok result => Except.ok result
      | Except.error e => generateLoop ready attempt aborted req prompt rest (some e)
    else generateLoop ready attempt aborted req prompt rest lastError

/-- `InferenceEngine.generate` (lines 107-144): abort check, prompt
construction, then the fallback loop over `BACKEND_ORDER`. -/
def generate (ready : BackendReady)
    (externalOutcome : Backend → Except GenError InferenceResult)
    (aborted : Bool) (req : GenerateRequest) : Except GenError InferenceResult :=
  if aborted then Except.error GenError.aborted
  else
    let prompt := buildPrompt req
    generateLoop ready (attemptBackend externalOutcome aborted req prompt)
      aborted req prompt BACKEND_ORDER none

/-! ## WorkerPool constructor: forced single-worker mode and scaling -/

/-- The `ServerConfig` fields the pool's sizing logic reads. `modelPath`
and `httpEndpoint` are optional strings. -/
structure ScalingConfig where
  minWorkers : Nat
  maxWorkers : Nat
  initialWorkers : Nat
  modelPath : Option String
  httpEndpoint : Option String
deriving DecidableEq, Repr

/-- `Boolean(this.config.modelPath) && !this.config.httpEndpoint`
(worker-pool.ts lines 70-71). -/
def forceSingleLlamaWorker (cfg : ScalingConfig) : Bool :=
  jsTruthyStr cfg.modelPath && !(jsTruthyStr cfg.httpEndpoint)

/-- `effectiveMinWorkers` from the constructor. -/
def effectiveMinWorkers (cfg : ScalingConfig) : Nat :=
  if forceSingleLlamaWorker cfg then 1 else cfg.minWorkers

/-- `effectiveMaxWorkers` from the constructor. -/
def effectiveMaxWorkers (cfg : ScalingConfig) : Nat :=
  if forceSingleLlamaWorker cfg then 1 else cfg.maxWorkers

/-- `clamp(initialWorkers, effectiveMinWorkers, effectiveMaxWorkers)`:
the number of `createWorker()` calls the constructor loop makes. -/
def initialWorkerCount (cfg : ScalingConfig) : Nat :=
  clampNat cfg.initialWorkers (effectiveMinWorkers cfg) (effectiveMaxWorkers cfg)

/-- The `shouldScale` test of `WorkerPool.maybeScaleUp` (lines 353-365):
create a worker iff the queue is longer than the worker set and the
worker set is below the effective maximum. -/
def maybeScaleUpCreates (cfg : ScalingConfig) (queueLength workerCount : Nat) : Bool :=
  decide (workerCount < queueLength) && decide (workerCount < effectiveMaxWorkers cfg)

/-- The `desired` computation of `WorkerPool.scaleWorkers` (lines 192-198):
`clamp(Math.round(target), effectiveMinWorkers, effectiveMaxWorkers)`.
`Math.round` is `⌊x + 1/2⌋`, which is Mathlib's `round` on `ℚ`. -/
def scaleWorkersDesired (cfg : ScalingConfig) (target : ℚ) : Int :=
  clampInt (round target) (effectiveMinWorkers cfg) (effectiveMaxWorkers cfg)

/-! ## Invariants of the pool transition system -/

/-- Per-item invariant maintained by every pool handler. -/
structure ItemInv (it : PoolItem) : Prop where
  res_le_one : it.resolutions.length ≤ 1
  settled_iff : it.settled = true ↔ it.resolutions ≠ []
  armed_unsettled : it.timerArmed = true → it.settled = false
  unsettled_loc : it.settled = false → it.inPending = true ∨ it.inRunning = true
  pending_unsettled : it.inPending = true → it.settled = false
  started_not_pending : it.started = true → it.inPending = false
  timeout_iff : it.timedOut = true ↔ it.resolutions = [SettlementKind.timeoutErr]

/-- Pool-wide invariant: the queue holds exactly the pending (admitted,
not-yet-dispatched, unsettled) task ids, is duplicate-free and bounded,
and each counter agrees with the settlements on record. -/
structure PoolInv (cfg : PoolConfig) (s : PoolState) : Prop where
  items_inv : ∀ it ∈ s.items, ItemInv it
  queue_mem : ∀ tid ∈ s.queue, ∃ it, s.items[tid]? = some it ∧ it.inPending = true
  pending_mem : ∀ tid it, s.items[tid]? = some it → it.inPending = true → tid ∈ s.queue
  queue_nodup : s.queue.Nodup
  queue_count : s.queue.length = s.items.countP (fun it => it.inPending)
  queue_le : s.queue.length ≤ cfg.queueMaxLength
  submitted_eq : s.submittedTasks = s.items.length
  completed_eq : s.completedTasks = resCount s SettlementKind.success
  failed_eq : s.failedTasks = resCount s SettlementKind.backendErr
  cancelled_eq : s.cancelledTasks =
    resCount s SettlementKind.timeoutErr + resCount s SettlementKind.backendCancel
  timedOut_eq : s.timedOutTasks = resCount s SettlementKind.timeoutErr

/-! ## Concrete states used by witnesses and counterexamples -/

/-- The default pool configuration (defaults.ts). -/
def demoPoolConfig : PoolConfig :=
  { queueMaxLength := 256, taskTimeoutMs := 60000 }

/-- One task admitted with its timeout armed. -/
def demoPoolSubmitted : PoolState :=
  applySubmit demoPoolConfig true initPool

/-- ... and then its timeout fires before dispatch. -/
def demoPoolTimed : PoolState :=
  applyTimerFire demoPoolSubmitted 0

/-- A pool configuration with a one-slot queue. -/
def onSlotPoolConfig : PoolConfig :=
  { queueMaxLength := 1, taskTimeoutMs := 60000 }

/-- One admitted task filling the one-slot queue. -/
def poolOnePending : PoolState :=
  applySubmit onSlotPoolConfig false initPool

/-- A pattern at the default initial score and importance. -/
def demoPattern : PatternState :=
  { key := "k", score := 0.5, importance := 0.2, hits := 0, successes := 0,
    lastSeenAt := 0 }

/-- A minimal successful interaction. -/
def demoRecordInput : RecordInput :=
  { taskType := TaskType.generate, instruction := "add", response := "",
    success := true, latencyMs := 0, language := none, filePath := none,
    promptTokens := none, completionTokens := none }

/-- A Sona state one interaction away from the consolidation interval. -/
def sonaNineteen : SonaState :=
  { initialSonaState with interactions := 19 }

/-- A well-typed persisted pattern record whose importance (0.02) lies
below the documented legal minimum 0.05. -/
def rawLowImportance : RawPattern :=
  { key := JVal.jstr "k", score := JVal.jnum 0.5, importance := JVal.jnum 0.02,
    hits := JVal.jnum 1, successes := JVal.jnum 1, lastSeenAt := JVal.jnum 0 }

/-- A version-1 state file containing only `rawLowImportance`. -/
def lowImportanceFile : PersistedFile :=
  PersistedFile.parsed (JVal.jnum 1) (some [rawLowImportance]) none none none none

/-- A configuration with `modelPath` set, no HTTP endpoint, and multi-worker
settings (the defaults). -/
def demoScalingConfig : ScalingConfig :=
  { minWorkers := 2, maxWorkers := 8, initialWorkers := 2,
    modelPath := some "/models/ruvltra-claude-code-0.5b-q4_k_m.gguf",
    httpEndpoint := none }

/-- A minimal generation request. -/
def demoGenerateRequest : GenerateRequest :=
  { taskType := TaskType.generate, instruction := "hello", context := none,
    language := none, filePath := none }

/-- The queue item created by the admission in `demoPoolSubmitted`. -/
def demoFreshItem : PoolItem :=
  { taskId := 0, settled := false, timedOut := false, started := false,
    timerArmed := true, inPending := true, inRunning := false,
    backendDone := false, resolutions := [] }

/-- The same item after its timeout fired: settled with a timeout error. -/
def demoTimedItem : PoolItem :=
  { taskId := 0, settled := true, timedOut := true, started := false,
    timerArmed := false, inPending := false, inRunning := false,
    backendDone := false, resolutions := [SettlementKind.timeoutErr] }

/-! ## Helper lemmas -/

/-- The head of a joined line list is a prefix, so its length bounds the
join from below. -/
theorem joinLines_head_length_le (a : String) (l : List String) :
    a.length ≤ (joinLines (a :: l)).length := by
  cases l with
  | nil => simp [joinLines]
  | cons b r =>
    show a.length ≤ (a ++ "\n" ++ joinLines (b :: r)).length
    simp only [String.length_append]
    omega

/-- Counting after a point update: the count changes by swapping the old
element's contribution for the new one's. -/
theorem countP_set_swap {α : Type} (p : α → Bool) :
    ∀ (l : List α) (i : Nat) (a b : α), l[i]? = some b →
      (l.set i a).countP p + (if p b then 1 else 0)
        = l.countP p + (if p a then 1 else 0)
  | [], i, _, _, h => by simp at h
  | c :: l, 0, a, b, h => by
    simp only [List.getElem?_cons_zero, Option.some.injEq] at h
    subst h
    simp only [List.set_cons_zero, List.countP_cons]
    omega
  | c :: l, i + 1, a, b, h => by
    simp only [List.getElem?_cons_succ] at h
    have ih := countP_set_swap p l i a b h
    simp only [List.set_cons_succ, List.countP_cons]
    omega

/-- Bound from `List.getElem?`. -/
theorem lt_of_getElem?_some {α : Type} {l : List α} {i : Nat} {a : α}
    (h : l[i]? = some a) : i < l.length := by
  rcases List.getElem?_eq_some.mp h with ⟨hlt, _⟩
  exact hlt

/-- The eviction step never leaves more than `MAX_PATTERNS` patterns. -/
theorem evictWorst_length_le (ps : List PatternState) :
    (evictWorst ps).length ≤ MAX_PATTERNS := by
  by_cases h : MAX_PATTERNS < ps.length
  · simp only [evictWorst, if_pos h]
    set sorted := ps.mergeSort (fun a b => decide (rankValue a ≤ rankValue b))
      with hsorted
    set k := ps.length - MAX_PATTERNS with hk
    set removeKeys := (sorted.take k).map (fun p => p.key) with hrk
    set p := (fun q : PatternState => !(removeKeys.contains q.key)) with hp
    have hperm : sorted.Perm ps := List.mergeSort_perm ps _
    have hlen : (ps.filter p).length = (sorted.filter p).length :=
      ((hperm.filter p).length_eq).symm
    have htakenil : (sorted.take k).filter p = [] := by
      rw [List.filter_eq_nil_iff]
      intro x hx
      have hmem : x.key ∈ removeKeys := by
        rw [hrk]
        exact List.mem_map_of_mem (fun q : PatternState => q.key) hx
      simp [hp, hmem]
    have hsplit : sorted.filter p = (sorted.take k).filter p ++ (sorted.drop k).filter p := by
      rw [← List.filter_append, List.take_append_drop]
    have hlen2 : (sorted.filter p).length ≤ (sorted.drop k).length := by
      rw [hsplit, htakenil]
      simpa using List.length_filter_le p (sorted.drop k)
    have hslen : sorted.length = ps.length := hperm.length_eq
    have : (ps.filter p).length ≤ ps.length - k := by
      rw [hlen]
      calc (sorted.filter p).length ≤ (sorted.drop k).length := hlen2
        _ = sorted.length - k := List.length_drop k sorted
        _ = ps.length - k := by rw [hslen]
    omega
  · simp only [evictWorst, if_neg h]
    omega

/-- The interaction counter is untouched by the per-key pattern updates. -/
theorem foldl_updatePattern_interactions (keys : List String) (s : SonaState)
    (q : ℚ) (b : Bool) (now : ℚ) :
    (keys.foldl (fun acc key => updatePattern acc key q b now) s).interactions
      = s.interactions := by
  induction keys generalizing s with
  | nil => rfl
  | cons key ks ih => simpa [updatePattern] using ih (updatePattern s key q b now)

/-! ## Claim theorems -/

/-- C3: the HTTP circuit breaker is claimed to increment its
consecutive-failure counter only once per call that exhausted its retries.
In the source, the `catch` block of `generateWithHttp` neither breaks nor
rethrows after `recordHttpFailure()`, so a non-retryable failure is
attempted again and the counter is incremented at every attempt: with
`httpMaxRetries = 1` and a persistently non-retryable error (for example
HTTP 400), one call issues two wire attempts and increments the counter
twice. -/
theorem http_failure_counter_incremented_per_attempt :
    generateWithHttpCall 5 30000 0 1 (fun _ => HttpAttemptOutcome.failure false)
        initialHttpCircuit
      = Except.ok
          { circuit :=
              { state := CircuitPhase.closed, consecutiveFailures := 2,
                openedAt := none, nextAttemptAt := none },
            wireAttempts := 2, succeeded := false } := by
  rfl

/-- C5: with only the mock backend ready and the task's token untripped,
`generate` always succeeds with `backend = mock` and non-empty text; no
valid request is rejected for lack of a backend. -/
theorem mock_backend_totality
    (externalOutcome : Backend → Except GenError InferenceResult)
    (req : GenerateRequest) :
    ∃ result,
      generate { http := false, llama := false, ruvllm := false } externalOutcome
          false req
        = Except.ok result
      ∧ result.backend = Backend.mock
      ∧ result.text ≠ "" := by
  refine ⟨{ text := mockResponseText req (buildPrompt req), backend := Backend.mock,
            model := "mock://ruvltra" }, ?_, rfl, ?_⟩
  · rfl
  · intro hempty
    have hempty2 : mockResponseText req (buildPrompt req) = "" := hempty
    have hlen : ("// Mock backend response (" ++ taskTypeStr req.taskType ++ ")").length
        ≤ (mockResponseText req (buildPrompt req)).length :=
      joinLines_head_length_le _ _
    have hopen : ("// Mock backend response (" : String).length = 26 := rfl
    have hclose : (")" : String).length = 1 := rfl
    have hnil : ("" : String).length = 0 := rfl
    rw [hempty2, String.length_append, String.length_append, hopen, hclose, hnil] at hlen
    omega

/-- C6: for every recorded interaction and every extracted pattern key, the
update follows the specified law: the quality formula with base 0.8/0.2,
latency penalty, token bonus, prompt penalty and clamping into
[0.05, 1.0]; and the pattern update with hit/success counters, learning
rate 0.28 · max(0.05, 1 − importance), exponential score blend, and
importance ← clamp(importance·0.97 + gain, 0.05, 0.99). -/
theorem pattern_update_follows_law (input : RecordInput) (key : String)
    (p : PatternState) (now : ℚ) :
    calculateQuality input
      = clampQ ((if input.success then (0.8 : ℚ) else 0.2)
          + (match input.completionTokens with
             | some c => min (c / 1600) 0.15
             | none => 0)
          - min (input.latencyMs / 12000) 0.4
          - (match input.promptTokens with
             | some t => min (t / 8000) 0.08
             | none => 0)) 0.05 1
    ∧ updatePatternEntry (some p) key (calculateQuality input) input.success now
      = { key := p.key,
          hits := p.hits + 1,
          successes := p.successes + (if input.success then 1 else 0),
          lastSeenAt := now,
          score := p.score * (1 - 0.28 * max 0.05 (1 - p.importance))
            + calculateQuality input * (0.28 * max 0.05 (1 - p.importance)),
          importance := clampQ (p.importance * 0.97
            + (if input.success then 0.06 else 0.01)) 0.05 0.99 } := by
  constructor
  · rfl
  · rfl

/-- C7: a successful interaction never decreases a pattern's importance:
starting anywhere in [0.05, 0.99], the update
clamp(importance·0.97 + 0.06, 0.05, 0.99) is ≥ the old importance. -/
theorem importance_monotone_under_success (p : PatternState) (key : String)
    (q now : ℚ) (h1 : 0.05 ≤ p.importance) (h2 : p.importance ≤ 0.99) :
    p.importance ≤ (updatePatternEntry (some p) key q true now).importance := by
  show p.importance ≤ clampQ (p.importance * 0.97 + 0.06) 0.05 0.99
  rw [clampQ, le_min_iff]
  refine ⟨le_max_of_le_left (by linarith), h2⟩

/-- Witness for C7 at the default initial importance 0.2. -/
theorem importance_monotone_witness :
    (0.05 : ℚ) ≤ demoPattern.importance ∧ demoPattern.importance ≤ 0.99
    ∧ demoPattern.importance
        ≤ (updatePatternEntry (some demoPattern) "k" 1 true 0).importance :=
  ⟨by norm_num [demoPattern], by norm_num [demoPattern],
   importance_monotone_under_success demoPattern "k" 1 0
     (by norm_num [demoPattern]) (by norm_num [demoPattern])⟩

/-- C8: the pattern count is always at most 600 after consolidation: the
consolidate sweep plus eviction leaves at most `MAX_PATTERNS` patterns, and
a recorded interaction that lands on the consolidation interval (every 20
interactions) leaves the worker with at most 600 patterns. -/
theorem consolidation_bounds_pattern_count :
    (∀ (s : SonaState) (now : ℚ),
      ((consolidate s now).patterns).length ≤ MAX_PATTERNS)
    ∧ (∀ (s : SonaState) (input : RecordInput) (now : ℚ),
        (s.interactions + 1) % CONSOLIDATE_INTERVAL = 0 →
        ((recordInteraction true s input now).patterns).length ≤ MAX_PATTERNS) := by
  have hcons : ∀ (s : SonaState) (now : ℚ),
      ((consolidate s now).patterns).length ≤ MAX_PATTERNS := by
    intro s now
    simpa [consolidate] using
      evictWorst_length_le (consolidateSweep now s.patterns)
  refine ⟨hcons, ?_⟩
  intro s input now h
  simp only [recordInteraction, Bool.not_true, Bool.false_eq_true, if_false]
  set s1 : SonaState :=
    { s with
      interactions := s.interactions + 1,
      successes := s.successes + (if input.success then 1 else 0) } with hs1
  set s2 := (extractPatternKeys input).foldl
    (fun acc key =>
      updatePattern acc key (calculateQuality input) input.success now) s1 with hs2
  have hint : s2.interactions = s.interactions + 1 := by
    rw [hs2, foldl_updatePattern_interactions]
  have htrigger : (s2.interactions % CONSOLIDATE_INTERVAL == 0) = true := by
    rw [hint]
    simpa using h
  rw [htrigger]
  simp only [if_true]
  exact hcons s2 now

/-- Witness for C8 second part: the twentieth interaction triggers
consolidation and the bound holds. -/
theorem consolidation_bound_witness :
    (sonaNineteen.interactions + 1) % CONSOLIDATE_INTERVAL = 0
    ∧ ((recordInteraction true sonaNineteen demoRecordInput 0).patterns).length
        ≤ MAX_PATTERNS :=
  ⟨by decide,
   consolidation_bounds_pattern_count.2 sonaNineteen demoRecordInput 0 (by decide)⟩

/-- C9: the loader is claimed to clamp a persisted pattern's importance
into its legal range [0.05, 0.99], but `loadStateFromDisk` clamps it into
[0.01, 0.99] (the 0.01 lower bound belongs to `score`): a record with
importance 0.02 is loaded as 0.02, below the documented minimum 0.05 that
every other site (`updatePattern`, the default 0.2) maintains. -/
theorem load_state_importance_below_minimum :
    (loadStateFromDisk true true lowImportanceFile initialSonaState).patterns
      = [{ key := "k", score := 0.5, importance := 0.02, hits := 1, successes := 1,
           lastSeenAt := 0 }]
    ∧ ¬((0.05 : ℚ) ≤ (0.02 : ℚ)) := by
  refine ⟨?_, by norm_num⟩
  simp only [loadStateFromDisk, lowImportanceFile, rawLowImportance, initialSonaState,
    loadPattern, setPattern, clampQ, floorNonneg, List.foldl]
  norm_num [min_def, max_def]

/-- C10: with `modelPath` configured and no `httpEndpoint`, the pool forces
single-worker mode: both effective bounds are 1, the constructor creates
exactly one worker, auto-scale-up never fires once a worker exists, and
every operator scale target is clamped to 1 — regardless of the configured
`minWorkers`, `maxWorkers`, `initialWorkers`. -/
theorem forced_single_worker_mode (cfg : ScalingConfig)
    (h : forceSingleLlamaWorker cfg = true) :
    effectiveMinWorkers cfg = 1 ∧ effectiveMaxWorkers cfg = 1
    ∧ initialWorkerCount cfg = 1
    ∧ (∀ queueLength workerCount : Nat, 1 ≤ workerCount →
        maybeScaleUpCreates cfg queueLength workerCount = false)
    ∧ (∀ target : ℚ, scaleWorkersDesired cfg target = 1) := by
  have hmin : effectiveMinWorkers cfg = 1 := by simp [effectiveMinWorkers, h]
  have hmax : effectiveMaxWorkers cfg = 1 := by simp [effectiveMaxWorkers, h]
  refine ⟨hmin, hmax, ?_, ?_, ?_⟩
  · rw [initialWorkerCount, hmin, hmax, clampNat]
    omega
  · intro ql wc hwc
    rw [maybeScaleUpCreates, hmax]
    have : ¬(wc < 1) := by omega
    simp [this]
  · intro t
    rw [scaleWorkersDesired, hmin, hmax, clampInt]
    push_cast
    omega

/-- Witness for C10 with default worker sizing and only `modelPath` set. -/
theorem forced_single_worker_witness :
    forceSingleLlamaWorker demoScalingConfig = true
    ∧ initialWorkerCount demoScalingConfig = 1
    ∧ scaleWorkersDesired demoScalingConfig 5 = 1 :=
  ⟨by decide,
   (forced_single_worker_mode demoScalingConfig (by decide)).2.2.1,
   (forced_single_worker_mode demoScalingConfig (by decide)).2.2.2.2 5⟩

/-! ## Preservation of the pool invariant -/

/-- Writing back the element that is already there changes nothing. -/
theorem set_of_getElem?_some {α : Type} :
    ∀ (l : List α) (i : Nat) (a : α), l[i]? = some a → l.set i a = l
  | [], _, _, h => by simp at h
  | b :: l, 0, a, h => by
    simp only [List.getElem?_cons_zero, Option.some.injEq] at h
    simp [h]
  | b :: l, i + 1, a, h => by
    simp only [List.getElem?_cons_succ] at h
    simp [set_of_getElem?_some l i a h]

/-- Point update with an equal predicate value keeps the count. -/
theorem countP_set_same {α : Type} (p : α → Bool) (l : List α) (i : Nat)
    (a b : α) (h : l[i]? = some b) (hpe : p a = p b) :
    (l.set i a).countP p = l.countP p := by
  have hsw := countP_set_swap p l i a b h
  rw [hpe] at hsw
  omega

/-- Point update turning the predicate on adds one to the count. -/
theorem countP_set_incr {α : Type} (p : α → Bool) (l : List α) (i : Nat)
    (a b : α) (h : l[i]? = some b) (hpb : p b = false) (hpa : p a = true) :
    (l.set i a).countP p = l.countP p + 1 := by
  have hsw := countP_set_swap p l i a b h
  rw [hpb, hpa] at hsw
  simp at hsw
  omega

/-- Point update turning the predicate off removes one from the count. -/
theorem countP_set_decr {α : Type} (p : α → Bool) (l : List α) (i : Nat)
    (a b : α) (h : l[i]? = some b) (hpb : p b = true) (hpa : p a = false) :
    (l.set i a).countP p + 1 = l.countP p := by
  have hsw := countP_set_swap p l i a b h
  rw [hpb, hpa] at hsw
  simp at hsw
  omega

/-- An unsettled item has no resolutions on record. -/
theorem resolutions_nil_of_unsettled {it : PoolItem} (hi : ItemInv it)
    (hs : it.settled = false) : it.resolutions = [] := by
  by_contra hne
  rw [hi.settled_iff.mpr hne] at hs
  cases hs

/-- An unsettled item is not marked timed out. -/
theorem timedOut_false_of_unsettled {it : PoolItem} (hi : ItemInv it)
    (hs : it.settled = false) : it.timedOut = false := by
  by_cases ht : it.timedOut = true
  · have := hi.timeout_iff.mp ht
    have := hi.settled_iff.mpr (by rw [this]; simp)
    rw [this] at hs
    cases hs
  · simpa using ht

/-- `executeTask` preserves the pool invariant. -/
theorem poolInv_applySubmit (cfg : PoolConfig) (s : PoolState) (b : Bool)
    (hinv : PoolInv cfg s) : PoolInv cfg (applySubmit cfg b s) := by
  by_cases hrej : submitRejects cfg s = true
  · unfold applySubmit
    rw [if_pos hrej]
    exact
      { items_inv := hinv.items_inv, queue_mem := hinv.queue_mem,
        pending_mem := hinv.pending_mem, queue_nodup := hinv.queue_nodup,
        queue_count := hinv.queue_count, queue_le := hinv.queue_le,
        submitted_eq := hinv.submitted_eq, completed_eq := hinv.completed_eq,
        failed_eq := hinv.failed_eq, cancelled_eq := hinv.cancelled_eq,
        timedOut_eq := hinv.timedOut_eq }
  · have hlt : s.queue.length < cfg.queueMaxLength := by
      simp only [submitRejects, decide_eq_true_eq] at hrej
      omega
    unfold applySubmit
    rw [if_neg hrej]
    set fresh : PoolItem :=
      { taskId := s.items.length, settled := false, timedOut := false,
        started := false, timerArmed := b, inPending := true, inRunning := false,
        backendDone := false, resolutions := [] } with hfresh
    have hfreshinv : ItemInv fresh := by
      constructor <;> simp [hfresh]
    have hnotin : s.items.length ∉ s.queue := by
      intro hmem
      obtain ⟨it, hget, _⟩ := hinv.queue_mem _ hmem
      have := lt_of_getElem?_some hget
      omega
    refine ⟨?_, ?_, ?_, ?_, ?_, ?_, ?_, ?_, ?_, ?_, ?_⟩
    · intro it hit
      rcases List.mem_append.mp hit with hold | hnew
      · exact hinv.items_inv it hold
      · rw [List.mem_singleton.mp hnew]
        exact hfreshinv
    · intro tid htid
      rcases List.mem_append.mp htid with hold | hnew
      · obtain ⟨it, hget, hp⟩ := hinv.queue_mem tid hold
        refine ⟨it, ?_, hp⟩
        rw [List.getElem?_append, if_pos (lt_of_getElem?_some hget)]
        exact hget
      · refine ⟨fresh, ?_, rfl⟩
        rw [List.mem_singleton.mp hnew]
        exact List.getElem?_concat_length s.items fresh
    · intro tid it hget hp
      rw [List.getElem?_append] at hget
      by_cases hc : tid < s.items.length
      · rw [if_pos hc] at hget
        exact List.mem_append_left _ (hinv.pending_mem tid it hget hp)
      · rw [if_neg hc] at hget
        have htid : tid = s.items.length := by
          rcases Nat.lt_or_ge (tid - s.items.length) 1 with hlt1 | hge1
          · omega
          · rw [List.getElem?_eq_none (by simpa using hge1)] at hget
            cases hget
        exact List.mem_append_right _ (by rw [htid]; exact List.mem_singleton_self _)
    · rw [List.nodup_append]
      exact ⟨hinv.queue_nodup, List.nodup_singleton _,
        by simpa [List.disjoint_singleton] using hnotin⟩
    · simp only [List.length_append, List.countP_append, List.length_singleton]
      rw [hinv.queue_count]
      simp [hfresh, List.countP_cons]
    · simp only [List.length_append, List.length_singleton]
      omega
    · simp only [List.length_append, List.length_singleton]
      rw [hinv.submitted_eq]
    · simp only [resCount, List.countP_append]
      rw [← resCount, ← hinv.completed_eq]
      simp [hfresh, List.countP_cons]
    · simp only [resCount, List.countP_append]
      rw [← resCount, ← hinv.failed_eq]
      simp [hfresh, List.countP_cons]
    · simp only [resCount, List.countP_append]
      rw [← resCount, ← resCount]
      rw [hinv.cancelled_eq]
      simp [hfresh, List.countP_cons]
    · simp only [resCount, List.countP_append]
      rw [← resCount, ← hinv.timedOut_eq]
      simp [hfresh, List.countP_cons]

/-- A dispatch-pass iteration preserves the pool invariant. -/
theorem poolInv_applyDispatchOne (cfg : PoolConfig) (s : PoolState)
    (hinv : PoolInv cfg s) : PoolInv cfg (applyDispatchOne s) := by
  rcases hq : s.queue with _ | ⟨tid, rest⟩
  · unfold applyDispatchOne
    rw [hq]
    exact hinv
  · obtain ⟨it, hget, hpend⟩ := hinv.queue_mem tid (by rw [hq]; exact List.mem_cons_self _ _)
    have hitem := hinv.items_inv it (List.getElem?_mem hget)
    have hsettled : it.settled = false := hitem.pending_unsettled hpend
    have hlt : tid < s.items.length := lt_of_getElem?_some hget
    have hnodupq : (tid :: rest).Nodup := hq ▸ hinv.queue_nodup
    have htidnotin : tid ∉ rest := (List.nodup_cons.mp hnodupq).1
    have hrestnodup : rest.Nodup := (List.nodup_cons.mp hnodupq).2
    set newIt : PoolItem :=
      { it with started := true, inPending := false, inRunning := true } with hnew
    have happ : applyDispatchOne s =
        { s with queue := rest, items := s.items.set tid newIt } := by
      simp only [applyDispatchOne, hq, hget, hsettled, Bool.false_eq_true, if_false, hnew]
    have hsame : ∀ k, resCount { s with queue := rest, items := s.items.set tid newIt } k
        = resCount s k := by
      intro k
      show (s.items.set tid newIt).countP _ = _
      exact countP_set_same _ s.items tid newIt it hget rfl
    rw [happ]
    refine ⟨?_, ?_, ?_, ?_, ?_, ?_, ?_, ?_, ?_, ?_, ?_⟩
    · show ∀ x ∈ s.items.set tid newIt, ItemInv x
      intro x hx
      rcases List.mem_or_eq_of_mem_set hx with hold | hxeq
      · exact hinv.items_inv x hold
      · subst hxeq
        exact
          { res_le_one := hitem.res_le_one,
            settled_iff := hitem.settled_iff,
            armed_unsettled := hitem.armed_unsettled,
            unsettled_loc := fun _ => Or.inr rfl,
            pending_unsettled := fun h => Bool.noConfusion h,
            started_not_pending := fun _ => rfl,
            timeout_iff := hitem.timeout_iff }
    · show ∀ t2 ∈ rest, ∃ x, (s.items.set tid newIt)[t2]? = some x ∧ x.inPending = true
      intro t2 ht2
      have ht2q : t2 ∈ s.queue := by rw [hq]; exact List.mem_cons_of_mem _ ht2
      obtain ⟨x, hgx, hpx⟩ := hinv.queue_mem t2 ht2q
      have hne : t2 ≠ tid := fun he => htidnotin (he ▸ ht2)
      exact ⟨x, by rw [List.getElem?_set_ne (Ne.symm hne)]; exact hgx, hpx⟩
    · show ∀ t2 x, (s.items.set tid newIt)[t2]? = some x → x.inPending = true → t2 ∈ rest
      intro t2 x hgx hpx
      by_cases he : t2 = tid
      · subst he
        rw [List.getElem?_set_self hlt] at hgx
        injection hgx with hxeq
        rw [← hxeq] at hpx
        cases hpx
      · rw [List.getElem?_set_ne (Ne.symm he)] at hgx
        have hmem := hinv.pending_mem t2 x hgx hpx
        rw [hq] at hmem
        rcases List.mem_cons.mp hmem with h1 | h2
        · exact absurd h1 he
        · exact h2
    · exact hrestnodup
    · show rest.length = (s.items.set tid newIt).countP (fun x => x.inPending)
      have hdecr := countP_set_decr (fun x : PoolItem => x.inPending) s.items tid
        newIt it hget hpend rfl
      have hqc := hinv.queue_count
      have hlen : s.queue.length = rest.length + 1 := by rw [hq]; rfl
      omega
    · show rest.length ≤ cfg.queueMaxLength
      have hle := hinv.queue_le
      have hlen : s.queue.length = rest.length + 1 := by rw [hq]; rfl
      omega
    · show s.submittedTasks = (s.items.set tid newIt).length
      rw [List.length_set]
      exact hinv.submitted_eq
    · rw [hsame]
      exact hinv.completed_eq
    · rw [hsame]
      exact hinv.failed_eq
    · rw [hsame, hsame]
      exact hinv.cancelled_eq
    · rw [hsame]
      exact hinv.timedOut_eq

/-- A timeout firing preserves the pool invariant. -/
theorem poolInv_applyTimerFire (cfg : PoolConfig) (s : PoolState) (tid : Nat)
    (it : PoolItem) (hget : s.items[tid]? = some it) (harmed : it.timerArmed = true)
    (hinv : PoolInv cfg s) : PoolInv cfg (applyTimerFire s tid) := by
  have hitem := hinv.items_inv it (List.getElem?_mem hget)
  have hsettled : it.settled = false := hitem.armed_unsettled harmed
  have hres : it.resolutions = [] := resolutions_nil_of_unsettled hitem hsettled
  have htimed : it.timedOut = false := timedOut_false_of_unsettled hitem hsettled
  have hlt : tid < s.items.length := lt_of_getElem?_some hget
  by_cases hpend : it.inPending = true
  · -- the task was still queued: it is cancelled out of the queue
    have htidq : tid ∈ s.queue := hinv.pending_mem tid it hget hpend
    set newIt : PoolItem :=
      { it with
        timedOut := true,
        timerArmed := false,
        inPending := false,
        settled := true,
        resolutions := [SettlementKind.timeoutErr] } with hnew
    have happ : applyTimerFire s tid =
        { s with
          timedOutTasks := s.timedOutTasks + 1,
          cancelledTasks := s.cancelledTasks + 1,
          queue := s.queue.erase tid,
          items := s.items.set tid newIt } := by
      simp only [applyTimerFire, hget, applyCancelTask, List.getElem?_set_self hlt,
        hpend, if_true, finishWithErrorItem, hsettled, Bool.false_eq_true, if_false,
        hres, List.nil_append, List.set_set, hnew]
    have hsame : ∀ k, k ≠ SettlementKind.timeoutErr →
        (s.items.set tid newIt).countP (fun x => x.resolutions = [k])
          = s.items.countP (fun x => x.resolutions = [k]) := by
      intro k hk
      refine countP_set_same _ s.items tid newIt it hget ?_
      simp [hnew, hres, hk.symm]
    have hincr :
        (s.items.set tid newIt).countP
            (fun x => x.resolutions = [SettlementKind.timeoutErr])
          = s.items.countP
              (fun x => x.resolutions = [SettlementKind.timeoutErr]) + 1 := by
      refine countP_set_incr _ s.items tid newIt it hget ?_ ?_
      · simp [hres]
      · simp [hnew]
    rw [happ]
    refine ⟨?_, ?_, ?_, ?_, ?_, ?_, ?_, ?_, ?_, ?_, ?_⟩
    · show ∀ x ∈ s.items.set tid newIt, ItemInv x
      intro x hx
      rcases List.mem_or_eq_of_mem_set hx with hold | hxeq
      · exact hinv.items_inv x hold
      · subst hxeq
        exact
          { res_le_one := by simp [hnew],
            settled_iff := by simp [hnew],
            armed_unsettled := fun h => Bool.noConfusion h,
            unsettled_loc := fun h => Bool.noConfusion h,
            pending_unsettled := fun h => Bool.noConfusion h,
            started_not_pending := fun _ => rfl,
            timeout_iff := by simp [hnew] }
    · show ∀ t2 ∈ s.queue.erase tid,
          ∃ x, (s.items.set tid newIt)[t2]? = some x ∧ x.inPending = true
      intro t2 ht2
      have hmem := (hinv.queue_nodup.mem_erase_iff.mp ht2)
      obtain ⟨x, hgx, hpx⟩ := hinv.queue_mem t2 hmem.2
      exact ⟨x, by rw [List.getElem?_set_ne (Ne.symm hmem.1)]; exact hgx, hpx⟩
    · show ∀ t2 x, (s.items.set tid newIt)[t2]? = some x → x.inPending = true →
          t2 ∈ s.queue.erase tid
      intro t2 x hgx hpx
      by_cases he : t2 = tid
      · subst he
        rw [List.getElem?_set_self hlt] at hgx
        injection hgx with hxeq
        rw [← hxeq] at hpx
        cases hpx
      · rw [List.getElem?_set_ne (Ne.symm he)] at hgx
        exact hinv.queue_nodup.mem_erase_iff.mpr
          ⟨he, hinv.pending_mem t2 x hgx hpx⟩
    · exact hinv.queue_nodup.erase tid
    · show (s.queue.erase tid).length
          = (s.items.set tid newIt).countP (fun x => x.inPending)
      have hdecr := countP_set_decr (fun x : PoolItem => x.inPending) s.items tid
        newIt it hget hpend rfl
      have herase := List.length_erase_of_mem htidq
      have hqlen : 1 ≤ s.queue.length := List.length_pos_of_mem htidq
      have hqc := hinv.queue_count
      omega
    · show (s.queue.erase tid).length ≤ cfg.queueMaxLength
      have herase := List.length_erase_of_mem htidq
      have hle := hinv.queue_le
      omega
    · show s.submittedTasks = (s.items.set tid newIt).length
      rw [List.length_set]
      exact hinv.submitted_eq
    · show s.completedTasks
          = (s.items.set tid newIt).countP
              (fun x => x.resolutions = [SettlementKind.success])
      rw [hsame _ (by simp)]
      exact hinv.completed_eq
    · show s.failedTasks
          = (s.items.set tid newIt).countP
              (fun x => x.resolutions = [SettlementKind.backendErr])
      rw [hsame _ (by simp)]
      exact hinv.failed_eq
    · show s.cancelledTasks + 1
          = (s.items.set tid newIt).countP
              (fun x => x.resolutions = [SettlementKind.timeoutErr])
            + (s.items.set tid newIt).countP
                (fun x => x.resolutions = [SettlementKind.backendCancel])
      rw [hincr, hsame _ (by simp)]
      have := hinv.cancelled_eq
      simp only [resCount] at this
      omega
    · show s.timedOutTasks + 1
          = (s.items.set tid newIt).countP
              (fun x => x.resolutions = [SettlementKind.timeoutErr])
      rw [hincr]
      have := hinv.timedOut_eq
      simp only [resCount] at this
      omega
  · -- the task was already running: it is cancelled in place
    have hpendf : it.inPending = false := by simpa using hpend
    have hrun : it.inRunning = true :=
      (hitem.unsettled_loc hsettled).resolve_left hpend
    have htidnq : tid ∉ s.queue := by
      intro hmem
      obtain ⟨x, hgx, hpx⟩ := hinv.queue_mem tid hmem
      rw [hget] at hgx
      injection hgx with hxeq
      rw [← hxeq] at hpx
      exact hpend hpx
    set newIt : PoolItem :=
      { it with
        timedOut := true,
        timerArmed := false,
        settled := true,
        resolutions := [SettlementKind.timeoutErr] } with hnew
    have happ : applyTimerFire s tid =
        { s with
          timedOutTasks := s.timedOutTasks + 1,
          cancelledTasks := s.cancelledTasks + 1,
          items := s.items.set tid newIt } := by
      simp only [applyTimerFire, hget, applyCancelTask, List.getElem?_set_self hlt,
        hpendf, Bool.false_eq_true, if_false, hrun, if_true, finishWithErrorItem,
        hsettled, hres, List.nil_append, List.set_set, hnew]
    have hsame : ∀ k, k ≠ SettlementKind.timeoutErr →
        (s.items.set tid newIt).countP (fun x => x.resolutions = [k])
          = s.items.countP (fun x => x.resolutions = [k]) := by
      intro k hk
      refine countP_set_same _ s.items tid newIt it hget ?_
      simp [hnew, hres, hk.symm]
    have hincr :
        (s.items.set tid newIt).countP
            (fun x => x.resolutions = [SettlementKind.timeoutErr])
          = s.items.countP
              (fun x => x.resolutions = [SettlementKind.timeoutErr]) + 1 := by
      refine countP_set_incr _ s.items tid newIt it hget ?_ ?_
      · simp [hres]
      · simp [hnew]
    rw [happ]
    refine ⟨?_, ?_, ?_, ?_, ?_, ?_, ?_, ?_, ?_, ?_, ?_⟩
    · show ∀ x ∈ s.items.set tid newIt, ItemInv x
      intro x hx
      rcases List.mem_or_eq_of_mem_set hx with hold | hxeq
      · exact hinv.items_inv x hold
      · subst hxeq
        exact
          { res_le_one := by simp [hnew],
            settled_iff := by simp [hnew],
            armed_unsettled := fun h => Bool.noConfusion h,
            unsettled_loc := fun h => Bool.noConfusion h,
            pending_unsettled := fun h => (hpend h).elim,
            started_not_pending := fun _ => hpendf,
            timeout_iff := by simp [hnew] }
    · show ∀ t2 ∈ s.queue,
          ∃ x, (s.items.set tid newIt)[t2]? = some x ∧ x.inPending = true
      intro t2 ht2
      obtain ⟨x, hgx, hpx⟩ := hinv.queue_mem t2 ht2
      have hne : t2 ≠ tid := fun he => htidnq (he ▸ ht2)
      exact ⟨x, by rw [List.getElem?_set_ne (Ne.symm hne)]; exact hgx, hpx⟩
    · show ∀ t2 x, (s.items.set tid newIt)[t2]? = some x → x.inPending = true →
          t2 ∈ s.queue
      intro t2 x hgx hpx
      by_cases he : t2 = tid
      · subst he
        rw [List.getElem?_set_self hlt] at hgx
        injection hgx with hxeq
        rw [← hxeq] at hpx
        exact absurd hpx (by simp [hnew, hpendf])
      · rw [List.getElem?_set_ne (Ne.symm he)] at hgx
        exact hinv.pending_mem t2 x hgx hpx
    · exact hinv.queue_nodup
    · show s.queue.length = (s.items.set tid newIt).countP (fun x => x.inPending)
      have hcs := countP_set_same (fun x : PoolItem => x.inPending) s.items tid
        newIt it hget (by simp [hnew])
      rw [hcs]
      exact hinv.queue_count
    · exact hinv.queue_le
    · show s.submittedTasks = (s.items.set tid newIt).length
      rw [List.length_set]
      exact hinv.submitted_eq
    · show s.completedTasks
          = (s.items.set tid newIt).countP
              (fun x => x.resolutions = [SettlementKind.success])
      rw [hsame _ (by simp)]
      exact hinv.completed_eq
    · show s.failedTasks
          = (s.items.set tid newIt).countP
              (fun x => x.resolutions = [SettlementKind.backendErr])
      rw [hsame _ (by simp)]
      exact hinv.failed_eq
    · show s.cancelledTasks + 1
          = (s.items.set tid newIt).countP
              (fun x => x.resolutions = [SettlementKind.timeoutErr])
            + (s.items.set tid newIt).countP
                (fun x => x.resolutions = [SettlementKind.backendCancel])
      rw [hincr, hsame _ (by simp)]
      have := hinv.cancelled_eq
      simp only [resCount] at this
      omega
    · show s.timedOutTasks + 1
          = (s.items.set tid newIt).countP
              (fun x => x.resolutions = [SettlementKind.timeoutErr])
      rw [hincr]
      have := hinv.timedOut_eq
      simp only [resCount] at this
      omega

/-- Queue facts are stable under a point update of a non-pending item that
stays non-pending. -/
theorem queue_facts_set_nonpending (cfg : PoolConfig) (s : PoolState) (tid : Nat)
    (it newIt : PoolItem) (hget : s.items[tid]? = some it)
    (hpend : it.inPending = false) (hpnew : newIt.inPending = false)
    (hinv : PoolInv cfg s) :
    (∀ t2 ∈ s.queue, ∃ x, (s.items.set tid newIt)[t2]? = some x ∧ x.inPending = true)
    ∧ (∀ t2 x, (s.items.set tid newIt)[t2]? = some x → x.inPending = true →
        t2 ∈ s.queue)
    ∧ s.queue.length = (s.items.set tid newIt).countP (fun x => x.inPending) := by
  have hlt : tid < s.items.length := lt_of_getElem?_some hget
  have htidnq : tid ∉ s.queue := by
    intro hmem
    obtain ⟨x, hgx, hpx⟩ := hinv.queue_mem tid hmem
    rw [hget] at hgx
    injection hgx with hxeq
    rw [← hxeq, hpend] at hpx
    cases hpx
  refine ⟨?_, ?_, ?_⟩
  · intro t2 ht2
    obtain ⟨x, hgx, hpx⟩ := hinv.queue_mem t2 ht2
    have hne : t2 ≠ tid := fun he => htidnq (he ▸ ht2)
    exact ⟨x, by rw [List.getElem?_set_ne (Ne.symm hne)]; exact hgx, hpx⟩
  · intro t2 x hgx hpx
    by_cases he : t2 = tid
    · subst he
      rw [List.getElem?_set_self hlt] at hgx
      injection hgx with hxeq
      rw [← hxeq, hpnew] at hpx
      cases hpx
    · rw [List.getElem?_set_ne (Ne.symm he)] at hgx
      exact hinv.pending_mem t2 x hgx hpx
  · have hcs := countP_set_same (fun x : PoolItem => x.inPending) s.items tid
      newIt it hget (by show newIt.inPending = it.inPending; rw [hpnew, hpend])
    rw [hcs]
    exact hinv.queue_count

/-- A backend success arriving preserves the pool invariant. -/
theorem poolInv_applyBackendSucceed (cfg : PoolConfig) (s : PoolState) (tid : Nat)
    (it : PoolItem) (hget : s.items[tid]? = some it) (hstarted : it.started = true)
    (hinv : PoolInv cfg s) : PoolInv cfg (applyBackendSucceed s tid) := by
  have hitem := hinv.items_inv it (List.getElem?_mem hget)
  have hpendf : it.inPending = false := hitem.started_not_pending hstarted
  by_cases hsettled : it.settled = true
  · -- the item already settled: the arrival is discarded
    set newIt : PoolItem := { it with backendDone := true, inRunning := false }
      with hnew
    have happ : applyBackendSucceed s tid = { s with items := s.items.set tid newIt } := by
      simp only [applyBackendSucceed, hget]
      rw [if_pos hsettled]
    have hq := queue_facts_set_nonpending cfg s tid it newIt hget hpendf hpendf hinv
    have hsame : ∀ k, (s.items.set tid newIt).countP (fun x => x.resolutions = [k])
        = s.items.countP (fun x => x.resolutions = [k]) :=
      fun k => countP_set_same _ s.items tid newIt it hget rfl
    rw [happ]
    refine ⟨?_, hq.1, hq.2.1, hinv.queue_nodup, hq.2.2, hinv.queue_le, ?_, ?_, ?_, ?_, ?_⟩
    · show ∀ x ∈ s.items.set tid newIt, ItemInv x
      intro x hx
      rcases List.mem_or_eq_of_mem_set hx with hold | hxeq
      · exact hinv.items_inv x hold
      · subst hxeq
        exact
          { res_le_one := hitem.res_le_one,
            settled_iff := hitem.settled_iff,
            armed_unsettled := fun h =>
              absurd (hitem.armed_unsettled h) (by simp [hsettled]),
            unsettled_loc := fun h => Bool.noConfusion (hsettled.symm.trans h),
            pending_unsettled := fun h => Bool.noConfusion (hpendf.symm.trans h),
            started_not_pending := fun _ => hpendf,
            timeout_iff := hitem.timeout_iff }
    · show s.submittedTasks = (s.items.set tid newIt).length
      rw [List.length_set]
      exact hinv.submitted_eq
    · rw [show resCount { s with items := s.items.set tid newIt } SettlementKind.success
          = (s.items.set tid newIt).countP
              (fun x => x.resolutions = [SettlementKind.success]) from rfl,
        hsame]
      exact hinv.completed_eq
    · rw [show resCount { s with items := s.items.set tid newIt } SettlementKind.backendErr
          = (s.items.set tid newIt).countP
              (fun x => x.resolutions = [SettlementKind.backendErr]) from rfl,
        hsame]
      exact hinv.failed_eq
    · show s.cancelledTasks = _
      rw [show resCount { s with items := s.items.set tid newIt } SettlementKind.timeoutErr
          = (s.items.set tid newIt).countP
              (fun x => x.resolutions = [SettlementKind.timeoutErr]) from rfl,
        show resCount { s with items := s.items.set tid newIt } SettlementKind.backendCancel
          = (s.items.set tid newIt).countP
              (fun x => x.resolutions = [SettlementKind.backendCancel]) from rfl,
        hsame, hsame]
      exact hinv.cancelled_eq
    · rw [show resCount { s with items := s.items.set tid newIt } SettlementKind.timeoutErr
          = (s.items.set tid newIt).countP
              (fun x => x.resolutions = [SettlementKind.timeoutErr]) from rfl,
        hsame]
      exact hinv.timedOut_eq
  · -- first settlement: success is recorded
    have hsettledf : it.settled = false := by simpa using hsettled
    have hres : it.resolutions = [] := resolutions_nil_of_unsettled hitem hsettledf
    have htimed : it.timedOut = false := timedOut_false_of_unsettled hitem hsettledf
    set newIt : PoolItem :=
      { it with
        settled := true,
        timerArmed := false,
        resolutions := [SettlementKind.success],
        backendDone := true,
        inRunning := false } with hnew
    have happ : applyBackendSucceed s tid =
        { s with
          completedTasks := s.completedTasks + 1,
          items := s.items.set tid newIt } := by
      simp only [applyBackendSucceed, hget]
      rw [if_neg hsettled]
      simp only [finishWithSuccessItem, hsettledf, Bool.false_eq_true, if_false,
        hres, List.nil_append, hnew]
    have hq := queue_facts_set_nonpending cfg s tid it newIt hget hpendf hpendf hinv
    have hsame : ∀ k, k ≠ SettlementKind.success →
        (s.items.set tid newIt).countP (fun x => x.resolutions = [k])
          = s.items.countP (fun x => x.resolutions = [k]) := by
      intro k hk
      refine countP_set_same _ s.items tid newIt it hget ?_
      simp [hnew, hres, hk.symm]
    have hincr :
        (s.items.set tid newIt).countP
            (fun x => x.resolutions = [SettlementKind.success])
          = s.items.countP
              (fun x => x.resolutions = [SettlementKind.success]) + 1 := by
      refine countP_set_incr _ s.items tid newIt it hget ?_ ?_
      · simp [hres]
      · simp [hnew]
    rw [happ]
    refine ⟨?_, hq.1, hq.2.1, hinv.queue_nodup, hq.2.2, hinv.queue_le, ?_, ?_, ?_, ?_, ?_⟩
    · show ∀ x ∈ s.items.set tid newIt, ItemInv x
      intro x hx
      rcases List.mem_or_eq_of_mem_set hx with hold | hxeq
      · exact hinv.items_inv x hold
      · subst hxeq
        exact
          { res_le_one := by simp [hnew],
            settled_iff := by simp [hnew],
            armed_unsettled := fun h => Bool.noConfusion h,
            unsettled_loc := fun h => Bool.noConfusion h,
            pending_unsettled := fun h => Bool.noConfusion (hpendf.symm.trans h),
            started_not_pending := fun _ => hpendf,
            timeout_iff := by simp [hnew, htimed] }
    · show s.submittedTasks = (s.items.set tid newIt).length
      rw [List.length_set]
      exact hinv.submitted_eq
    · show s.completedTasks + 1
          = (s.items.set tid newIt).countP
              (fun x => x.resolutions = [SettlementKind.success])
      rw [hincr]
      have := hinv.completed_eq
      simp only [resCount] at this
      omega
    · show s.failedTasks
          = (s.items.set tid newIt).countP
              (fun x => x.resolutions = [SettlementKind.backendErr])
      rw [hsame _ (by simp)]
      exact hinv.failed_eq
    · show s.cancelledTasks
          = (s.items.set tid newIt).countP
              (fun x => x.resolutions = [SettlementKind.timeoutErr])
            + (s.items.set tid newIt).countP
                (fun x => x.resolutions = [SettlementKind.backendCancel])
      rw [hsame _ (by simp), hsame _ (by simp)]
      exact hinv.cancelled_eq
    · show s.timedOutTasks
          = (s.items.set tid newIt).countP
              (fun x => x.resolutions = [SettlementKind.timeoutErr])
      rw [hsame _ (by simp)]
      exact hinv.timedOut_eq

/-- A backend failure arriving preserves the pool invariant. -/
theorem poolInv_applyBackendFail (cfg : PoolConfig) (s : PoolState) (tid : Nat)
    (cancelKind : Bool) (it : PoolItem) (hget : s.items[tid]? = some it)
    (hstarted : it.started = true) (hinv : PoolInv cfg s) :
    PoolInv cfg (applyBackendFail s tid cancelKind) := by
  have hitem := hinv.items_inv it (List.getElem?_mem hget)
  have hpendf : it.inPending = false := hitem.started_not_pending hstarted
  by_cases hsettled : it.settled = true
  · -- the item already settled: the arrival is discarded
    set newIt : PoolItem := { it with backendDone := true, inRunning := false }
      with hnew
    have happ : applyBackendFail s tid cancelKind
        = { s with items := s.items.set tid newIt } := by
      simp only [applyBackendFail, hget]
      rw [if_pos hsettled]
    have hq := queue_facts_set_nonpending cfg s tid it newIt hget hpendf hpendf hinv
    have hsame : ∀ k, (s.items.set tid newIt).countP (fun x => x.resolutions = [k])
        = s.items.countP (fun x => x.resolutions = [k]) :=
      fun k => countP_set_same _ s.items tid newIt it hget rfl
    rw [happ]
    refine ⟨?_, hq.1, hq.2.1, hinv.queue_nodup, hq.2.2, hinv.queue_le, ?_, ?_, ?_, ?_, ?_⟩
    · show ∀ x ∈ s.items.set tid newIt, ItemInv x
      intro x hx
      rcases List.mem_or_eq_of_mem_set hx with hold | hxeq
      · exact hinv.items_inv x hold
      · subst hxeq
        exact
          { res_le_one := hitem.res_le_one,
            settled_iff := hitem.settled_iff,
            armed_unsettled := fun h =>
              absurd (hitem.armed_unsettled h) (by simp [hsettled]),
            unsettled_loc := fun h => Bool.noConfusion (hsettled.symm.trans h),
            pending_unsettled := fun h => Bool.noConfusion (hpendf.symm.trans h),
            started_not_pending := fun _ => hpendf,
            timeout_iff := hitem.timeout_iff }
    · show s.submittedTasks = (s.items.set tid newIt).length
      rw [List.length_set]
      exact hinv.submitted_eq
    · show s.completedTasks
          = (s.items.set tid newIt).countP
              (fun x => x.resolutions = [SettlementKind.success])
      rw [hsame]
      exact hinv.completed_eq
    · show s.failedTasks
          = (s.items.set tid newIt).countP
              (fun x => x.resolutions = [SettlementKind.backendErr])
      rw [hsame]
      exact hinv.failed_eq
    · show s.cancelledTasks
          = (s.items.set tid newIt).countP
              (fun x => x.resolutions = [SettlementKind.timeoutErr])
            + (s.items.set tid newIt).countP
                (fun x => x.resolutions = [SettlementKind.backendCancel])
      rw [hsame, hsame]
      exact hinv.cancelled_eq
    · show s.timedOutTasks
          = (s.items.set tid newIt).countP
              (fun x => x.resolutions = [SettlementKind.timeoutErr])
      rw [hsame]
      exact hinv.timedOut_eq
  · -- first settlement: the failure is classified and recorded
    have hsettledf : it.settled = false := by simpa using hsettled
    have hres : it.resolutions = [] := resolutions_nil_of_unsettled hitem hsettledf
    have htimed : it.timedOut = false := timedOut_false_of_unsettled hitem hsettledf
    cases cancelKind with
    | true =>
      set newIt : PoolItem :=
        { it with
          settled := true,
          timerArmed := false,
          resolutions := [SettlementKind.backendCancel],
          backendDone := true,
          inRunning := false } with hnew
      have happ : applyBackendFail s tid true =
          { s with
            cancelledTasks := s.cancelledTasks + 1,
            items := s.items.set tid newIt } := by
        simp only [applyBackendFail, hget]
        rw [if_neg hsettled]
        simp only [if_true, finishWithErrorItem, hsettledf, Bool.false_eq_true,
          if_false, hres, List.nil_append, hnew]
      have hq := queue_facts_set_nonpending cfg s tid it newIt hget hpendf hpendf hinv
      have hsame : ∀ k, k ≠ SettlementKind.backendCancel →
          (s.items.set tid newIt).countP (fun x => x.resolutions = [k])
            = s.items.countP (fun x => x.resolutions = [k]) := by
        intro k hk
        refine countP_set_same _ s.items tid newIt it hget ?_
        simp [hnew, hres, hk.symm]
      have hincr :
          (s.items.set tid newIt).countP
              (fun x => x.resolutions = [SettlementKind.backendCancel])
            = s.items.countP
                (fun x => x.resolutions = [SettlementKind.backendCancel]) + 1 := by
        refine countP_set_incr _ s.items tid newIt it hget ?_ ?_
        · simp [hres]
        · simp [hnew]
      rw [happ]
      refine ⟨?_, hq.1, hq.2.1, hinv.queue_nodup, hq.2.2, hinv.queue_le, ?_, ?_, ?_, ?_, ?_⟩
      · show ∀ x ∈ s.items.set tid newIt, ItemInv x
        intro x hx
        rcases List.mem_or_eq_of_mem_set hx with hold | hxeq
        · exact hinv.items_inv x hold
        · subst hxeq
          exact
            { res_le_one := by simp [hnew],
              settled_iff := by simp [hnew],
              armed_unsettled := fun h => Bool.noConfusion h,
              unsettled_loc := fun h => Bool.noConfusion h,
              pending_unsettled := fun h => Bool.noConfusion (hpendf.symm.trans h),
              started_not_pending := fun _ => hpendf,
              timeout_iff := by simp [hnew, htimed] }
      · show s.submittedTasks = (s.items.set tid newIt).length
        rw [List.length_set]
        exact hinv.submitted_eq
      · show s.completedTasks
            = (s.items.set tid newIt).countP
                (fun x => x.resolutions = [SettlementKind.success])
        rw [hsame _ (by simp)]
        exact hinv.completed_eq
      · show s.failedTasks
            = (s.items.set tid newIt).countP
                (fun x => x.resolutions = [SettlementKind.backendErr])
        rw [hsame _ (by simp)]
        exact hinv.failed_eq
      · show s.cancelledTasks + 1
            = (s.items.set tid newIt).countP
                (fun x => x.resolutions = [SettlementKind.timeoutErr])
              + (s.items.set tid newIt).countP
                  (fun x => x.resolutions = [SettlementKind.backendCancel])
        rw [hincr, hsame _ (by simp)]
        have := hinv.cancelled_eq
        simp only [resCount] at this
        omega
      · show s.timedOutTasks
            = (s.items.set tid newIt).countP
                (fun x => x.resolutions = [SettlementKind.timeoutErr])
        rw [hsame _ (by simp)]
        exact hinv.timedOut_eq
    | false =>
      set newIt : PoolItem :=
        { it with
          settled := true,
          timerArmed := false,
          resolutions := [SettlementKind.backendErr],
          backendDone := true,
          inRunning := false } with hnew
      have happ : applyBackendFail s tid false =
          { s with
            failedTasks := s.failedTasks + 1,
            items := s.items.set tid newIt } := by
        simp only [applyBackendFail, hget]
        rw [if_neg hsettled]
        simp only [Bool.false_eq_true, if_false, finishWithErrorItem, hsettledf,
          hres, List.nil_append, hnew]
      have hq := queue_facts_set_nonpending cfg s tid it newIt hget hpendf hpendf hinv
      have hsame : ∀ k, k ≠ SettlementKind.backendErr →
          (s.items.set tid newIt).countP (fun x => x.resolutions = [k])
            = s.items.countP (fun x => x.resolutions = [k]) := by
        intro k hk
        refine countP_set_same _ s.items tid newIt it hget ?_
        simp [hnew, hres, hk.symm]
      have hincr :
          (s.items.set tid newIt).countP
              (fun x => x.resolutions = [SettlementKind.backendErr])
            = s.items.countP
                (fun x => x.resolutions = [SettlementKind.backendErr]) + 1 := by
        refine countP_set_incr _ s.items tid newIt it hget ?_ ?_
        · simp [hres]
        · simp [hnew]
      rw [happ]
      refine ⟨?_, hq.1, hq.2.1, hinv.queue_nodup, hq.2.2, hinv.queue_le, ?_, ?_, ?_, ?_, ?_⟩
      · show ∀ x ∈ s.items.set tid newIt, ItemInv x
        intro x hx
        rcases List.mem_or_eq_of_mem_set hx with hold | hxeq
        · exact hinv.items_inv x hold
        · subst hxeq
          exact
            { res_le_one := by simp [hnew],
              settled_iff := by simp [hnew],
              armed_unsettled := fun h => Bool.noConfusion h,
              unsettled_loc := fun h => Bool.noConfusion h,
              pending_unsettled := fun h => Bool.noConfusion (hpendf.symm.trans h),
              started_not_pending := fun _ => hpendf,
              timeout_iff := by simp [hnew, htimed] }
      · show s.submittedTasks = (s.items.set tid newIt).length
        rw [List.length_set]
        exact hinv.submitted_eq
      · show s.completedTasks
            = (s.items.set tid newIt).countP
                (fun x => x.resolutions = [SettlementKind.success])
        rw [hsame _ (by simp)]
        exact hinv.completed_eq
      · show s.failedTasks + 1
            = (s.items.set tid newIt).countP
                (fun x => x.resolutions = [SettlementKind.backendErr])
        rw [hincr]
        have := hinv.failed_eq
        simp only [resCount] at this
        omega
      · show s.cancelledTasks
            = (s.items.set tid newIt).countP
                (fun x => x.resolutions = [SettlementKind.timeoutErr])
              + (s.items.set tid newIt).countP
                  (fun x => x.resolutions = [SettlementKind.backendCancel])
        rw [hsame _ (by simp), hsame _ (by simp)]
        exact hinv.cancelled_eq
      · show s.timedOutTasks
            = (s.items.set tid newIt).countP
                (fun x => x.resolutions = [SettlementKind.timeoutErr])
        rw [hsame _ (by simp)]
        exact hinv.timedOut_eq

/-- Pool shutdown preserves the pool invariant. -/
theorem poolInv_applyShutdown (cfg : PoolConfig) (s : PoolState)
    (hinv : PoolInv cfg s) : PoolInv cfg (applyShutdown s) := by
  have hfacts : ∀ y ∈ s.items, ItemInv (shutdownItem y)
      ∧ (shutdownItem y).inPending = false
      ∧ ((shutdownItem y).resolutions = y.resolutions
         ∨ (y.resolutions = []
            ∧ (shutdownItem y).resolutions = [SettlementKind.shutdownCancel]
            ∧ (shutdownItem y).timedOut = y.timedOut ∧ y.timedOut = false)) := by
    intro y hy
    have hyinv := hinv.items_inv y hy
    by_cases hcond : (y.inPending || y.inRunning) = true
    · by_cases hsettled : y.settled = true
      · have hfin : finishWithErrorItem SettlementKind.shutdownCancel y = y := by
          simp [finishWithErrorItem, hsettled]
        have hsd : shutdownItem y
            = { y with inPending := false, inRunning := false } := by
          simp only [shutdownItem, hcond, if_true, hfin]
        rw [hsd]
        refine ⟨?_, rfl, Or.inl rfl⟩
        exact
          { res_le_one := hyinv.res_le_one,
            settled_iff := hyinv.settled_iff,
            armed_unsettled := fun h =>
              absurd (hyinv.armed_unsettled h) (by simp [hsettled]),
            unsettled_loc := fun h => Bool.noConfusion (hsettled.symm.trans h),
            pending_unsettled := fun h => Bool.noConfusion h,
            started_not_pending := fun _ => rfl,
            timeout_iff := hyinv.timeout_iff }
      · have hsettledf : y.settled = false := by simpa using hsettled
        have hres : y.resolutions = [] := resolutions_nil_of_unsettled hyinv hsettledf
        have htimed : y.timedOut = false := timedOut_false_of_unsettled hyinv hsettledf
        have hsd : shutdownItem y
            = { y with
                settled := true,
                timerArmed := false,
                resolutions := [SettlementKind.shutdownCancel],
                inPending := false,
                inRunning := false } := by
          simp only [shutdownItem, hcond, if_true, finishWithErrorItem, hsettledf,
            Bool.false_eq_true, if_false, hres, List.nil_append]
        rw [hsd]
        refine ⟨?_, rfl, Or.inr ⟨hres, rfl, rfl, htimed⟩⟩
        exact
          { res_le_one := by simp,
            settled_iff := by simp,
            armed_unsettled := fun h => Bool.noConfusion h,
            unsettled_loc := fun h => Bool.noConfusion h,
            pending_unsettled := fun h => Bool.noConfusion h,
            started_not_pending := fun _ => rfl,
            timeout_iff := by simp [htimed] }
    · have hsd : shutdownItem y = y := by
        simp only [shutdownItem, hcond, Bool.false_eq_true, if_false]
      have hpendf : y.inPending = false := by
        rcases Bool.or_eq_false_iff.mp (by simpa using hcond) with ⟨h1, _⟩
        exact h1
      rw [hsd]
      exact ⟨hyinv, hpendf, Or.inl rfl⟩
  have hcount : ∀ k, k ≠ SettlementKind.shutdownCancel →
      (s.items.map shutdownItem).countP (fun x => x.resolutions = [k])
        = s.items.countP (fun x => x.resolutions = [k]) := by
    intro k hk
    rw [List.countP_map]
    refine List.countP_congr ?_
    intro y hy
    simp only [Function.comp_apply, decide_eq_true_eq]
    rcases (hfacts y hy).2.2 with hsame | ⟨hnil, hnew, _, _⟩
    · rw [hsame]
    · rw [hnil, hnew]
      simp [hk.symm]
  refine ⟨?_, ?_, ?_, ?_, ?_, ?_, ?_, ?_, ?_, ?_, ?_⟩
  · show ∀ x ∈ s.items.map shutdownItem, ItemInv x
    intro x hx
    obtain ⟨y, hy, hxy⟩ := List.mem_map.mp hx
    rw [← hxy]
    exact (hfacts y hy).1
  · show ∀ t2 ∈ ([] : List Nat), _
    intro t2 ht2
    exact absurd ht2 (List.not_mem_nil t2)
  · show ∀ t2 x, (s.items.map shutdownItem)[t2]? = some x → x.inPending = true →
        t2 ∈ ([] : List Nat)
    intro t2 x hgx hpx
    rw [List.getElem?_map] at hgx
    rcases hy : s.items[t2]? with _ | y
    · rw [hy] at hgx
      cases hgx
    · rw [hy] at hgx
      injection hgx with hxeq
      rw [← hxeq] at hpx
      rw [(hfacts y (List.getElem?_mem hy)).2.1] at hpx
      cases hpx
  · exact List.nodup_nil
  · show ([] : List Nat).length = (s.items.map shutdownItem).countP (fun x => x.inPending)
    rw [List.length_nil]
    symm
    rw [List.countP_eq_zero]
    intro x hx
    obtain ⟨y, hy, hxy⟩ := List.mem_map.mp hx
    rw [← hxy]
    simp [(hfacts y hy).2.1]
  · show ([] : List Nat).length ≤ cfg.queueMaxLength
    simp
  · show s.submittedTasks = (s.items.map shutdownItem).length
    rw [List.length_map]
    exact hinv.submitted_eq
  · show s.completedTasks
        = (s.items.map shutdownItem).countP
            (fun x => x.resolutions = [SettlementKind.success])
    rw [hcount _ (by simp)]
    exact hinv.completed_eq
  · show s.failedTasks
        = (s.items.map shutdownItem).countP
            (fun x => x.resolutions = [SettlementKind.backendErr])
    rw [hcount _ (by simp)]
    exact hinv.failed_eq
  · show s.cancelledTasks
        = (s.items.map shutdownItem).countP
            (fun x => x.resolutions = [SettlementKind.timeoutErr])
          + (s.items.map shutdownItem).countP
              (fun x => x.resolutions = [SettlementKind.backendCancel])
    rw [hcount _ (by simp), hcount _ (by simp)]
    exact hinv.cancelled_eq
  · show s.timedOutTasks
        = (s.items.map shutdownItem).countP
            (fun x => x.resolutions = [SettlementKind.timeoutErr])
    rw [hcount _ (by simp)]
    exact hinv.timedOut_eq

/-- Every reachable pool state satisfies the invariant. -/
theorem poolInv_of_reachable (cfg : PoolConfig) (s : PoolState)
    (h : PoolReachable cfg s) : PoolInv cfg s := by
  induction h with
  | init =>
    refine ⟨?_, ?_, ?_, ?_, ?_, ?_, ?_, ?_, ?_, ?_, ?_⟩ <;> simp [initPool, resCount]
  | step hr hs ih =>
    cases hs with
    | submit b => exact poolInv_applySubmit cfg _ b ih
    | dispatchOne => exact poolInv_applyDispatchOne cfg _ ih
    | timerFire tid it hget harmed =>
      exact poolInv_applyTimerFire cfg _ tid it hget harmed ih
    | backendSucceed tid it hget hstarted hnotdone =>
      exact poolInv_applyBackendSucceed cfg _ tid it hget hstarted ih
    | backendFail tid cancelKind it hget hstarted hnotdone =>
      exact poolInv_applyBackendFail cfg _ tid cancelKind it hget hstarted ih
    | shutdown => exact poolInv_applyShutdown cfg _ ih

/-- Each settled item is counted under exactly one resolution kind. -/
theorem settled_count_partition (l : List PoolItem) (hl : ∀ it ∈ l, ItemInv it) :
    l.countP (fun it => it.settled)
      = l.countP (fun it => it.resolutions = [SettlementKind.success])
      + l.countP (fun it => it.resolutions = [SettlementKind.backendErr])
      + l.countP (fun it => it.resolutions = [SettlementKind.timeoutErr])
      + l.countP (fun it => it.resolutions = [SettlementKind.backendCancel])
      + l.countP (fun it => it.resolutions = [SettlementKind.shutdownCancel]) := by
  induction l with
  | nil => rfl
  | cons a l ih =>
    have ha := hl a (List.mem_cons_self a l)
    have ih2 := ih (fun it hit => hl it (List.mem_cons_of_mem a hit))
    simp only [List.countP_cons]
    by_cases hs : a.settled = true
    · have hne : a.resolutions ≠ [] := ha.settled_iff.mp hs
      have hlen := ha.res_le_one
      rcases hresolutions : a.resolutions with _ | ⟨k, rest⟩
      · exact absurd hresolutions hne
      · rcases rest with _ | ⟨k2, rest2⟩
        · cases k <;> simp [hs, hresolutions] <;> omega
        · rw [hresolutions] at hlen
          simp at hlen
    · have hsf : a.settled = false := by simpa using hs
      have hres : a.resolutions = [] := resolutions_nil_of_unsettled ha hsf
      simp only [hsf, hres, Bool.false_eq_true, if_false,
        show ∀ k : SettlementKind, decide (([] : List SettlementKind) = [k]) = false
          from fun k => by simp]
      omega

/-- The two-step run used as concrete input: one admitted task whose
timeout fires while it is still queued. -/
theorem demoPoolTimed_reachable : PoolReachable demoPoolConfig demoPoolTimed :=
  PoolReachable.step
    (PoolReachable.step PoolReachable.init (PoolStep.submit initPool true))
    (PoolStep.timerFire demoPoolSubmitted 0 demoFreshItem (by decide) (by decide))

/-- C1: every admitted task settles at most once, with exactly one
settlement kind among success, timeout, cancellation and backend error;
`settled` is latched (a task is settled exactly when one resolution was
delivered), and a backend completion or failure arriving for an
already-settled task is discarded: it changes none of the outcome counters
and delivers no further resolution to any task. -/
theorem task_settlement_latched (cfg : PoolConfig) (s : PoolState)
    (h : PoolReachable cfg s) :
    (∀ it ∈ s.items,
      it.resolutions.length ≤ 1
      ∧ (it.settled = true ↔ it.resolutions ≠ [])
      ∧ (it.settled = true → ∃ k, it.resolutions = [k]))
    ∧ (∀ tid it, s.items[tid]? = some it → it.settled = true →
        ((applyBackendSucceed s tid).completedTasks = s.completedTasks
          ∧ (applyBackendSucceed s tid).failedTasks = s.failedTasks
          ∧ (applyBackendSucceed s tid).cancelledTasks = s.cancelledTasks
          ∧ (applyBackendSucceed s tid).timedOutTasks = s.timedOutTasks
          ∧ (applyBackendSucceed s tid).items.map (fun x => x.resolutions)
              = s.items.map (fun x => x.resolutions))
        ∧ (∀ cancelKind,
            (applyBackendFail s tid cancelKind).completedTasks = s.completedTasks
            ∧ (applyBackendFail s tid cancelKind).failedTasks = s.failedTasks
            ∧ (applyBackendFail s tid cancelKind).cancelledTasks = s.cancelledTasks
            ∧ (applyBackendFail s tid cancelKind).timedOutTasks = s.timedOutTasks
            ∧ (applyBackendFail s tid cancelKind).items.map (fun x => x.resolutions)
                = s.items.map (fun x => x.resolutions))) := by
  have hinv := poolInv_of_reachable cfg s h
  constructor
  · intro it hit
    have hi := hinv.items_inv it hit
    refine ⟨hi.res_le_one, hi.settled_iff, ?_⟩
    intro hs2
    have hne := hi.settled_iff.mp hs2
    have hlen := hi.res_le_one
    rcases hres : it.resolutions with _ | ⟨k, rest⟩
    · exact absurd hres hne
    · rcases rest with _ | ⟨k2, r2⟩
      · exact ⟨k, rfl⟩
      · rw [hres] at hlen
        simp at hlen
  · intro tid it hget hsettled
    have hmap : ∀ newIt : PoolItem, newIt.resolutions = it.resolutions →
        (s.items.set tid newIt).map (fun x => x.resolutions)
          = s.items.map (fun x => x.resolutions) := by
      intro newIt hr
      rw [List.map_set, hr]
      apply set_of_getElem?_some
      rw [List.getElem?_map, hget]
      rfl
    set newIt : PoolItem := { it with backendDone := true, inRunning := false }
      with hnewIt
    have happS : applyBackendSucceed s tid
        = { s with items := s.items.set tid newIt } := by
      simp only [applyBackendSucceed, hget]
      rw [if_pos hsettled]
    constructor
    · rw [happS]
      exact ⟨rfl, rfl, rfl, rfl, hmap _ rfl⟩
    · intro ck
      have happF : applyBackendFail s tid ck
          = { s with items := s.items.set tid newIt } := by
        simp only [applyBackendFail, hget]
        rw [if_pos hsettled]
      rw [happF]
      exact ⟨rfl, rfl, rfl, rfl, hmap _ rfl⟩

/-- Witness for C1: in the two-step run, the settled task's late backend
arrival (success or failure) changes no outcome counter and no recorded
resolution. -/
theorem task_settlement_latched_witness :
    demoTimedItem.resolutions.length ≤ 1
    ∧ demoTimedItem.settled = true
    ∧ (applyBackendSucceed demoPoolTimed 0).completedTasks
        = demoPoolTimed.completedTasks
    ∧ (applyBackendSucceed demoPoolTimed 0).cancelledTasks
        = demoPoolTimed.cancelledTasks
    ∧ (applyBackendFail demoPoolTimed 0 false).failedTasks
        = demoPoolTimed.failedTasks
    ∧ (applyBackendFail demoPoolTimed 0 false).items.map (fun x => x.resolutions)
        = demoPoolTimed.items.map (fun x => x.resolutions) := by
  have h := task_settlement_latched demoPoolConfig demoPoolTimed demoPoolTimed_reachable
  have h1 := h.1 demoTimedItem (by decide)
  have h2 := h.2 0 demoTimedItem (by decide) (by decide)
  exact ⟨h1.1, by decide, h2.1.1, h2.1.2.2.1, (h2.2 false).2.1, (h2.2 false).2.2.2.2⟩

/-- C2: a submission fails with `QueueOverflowError` exactly when the queue
already holds `queueMaxLength` not-yet-dispatched items (the queue holds
exactly the pending, undispatched tasks — in-flight tasks do not count); a
rejected submission leaves the queue and the task list untouched,
increments only `rejectedTasks`, and the error's suggested retry delay is
`max(50, ceil(taskTimeoutMs / 4))` — one quarter of `taskTimeoutMs` for any
timeout of at least 200 ms. -/
theorem queue_overflow_boundary (cfg : PoolConfig) (s : PoolState) (b : Bool)
    (h : PoolReachable cfg s) :
    (submitRejects cfg s = true ↔ s.queue.length = cfg.queueMaxLength)
    ∧ s.queue.length = s.items.countP (fun it => it.inPending)
    ∧ (submitRejects cfg s = true →
        (applySubmit cfg b s).queue = s.queue
        ∧ (applySubmit cfg b s).items = s.items
        ∧ (applySubmit cfg b s).rejectedTasks = s.rejectedTasks + 1
        ∧ (applySubmit cfg b s).submittedTasks = s.submittedTasks)
    ∧ suggestedRetryMs cfg = max 50 ((cfg.taskTimeoutMs + 3) / 4)
    ∧ (200 ≤ cfg.taskTimeoutMs →
        suggestedRetryMs cfg = (cfg.taskTimeoutMs + 3) / 4) := by
  have hinv := poolInv_of_reachable cfg s h
  have hle := hinv.queue_le
  refine ⟨?_, hinv.queue_count, ?_, rfl, ?_⟩
  · simp only [submitRejects, decide_eq_true_eq]
    omega
  · intro hrej
    unfold applySubmit
    rw [if_pos hrej]
    exact ⟨rfl, rfl, rfl, rfl⟩
  · intro h200
    rw [suggestedRetryMs]
    omega

/-- Witness for C2: with a one-slot queue holding one pending task, the
next submission is rejected without occupying a slot, bumping only
`rejectedTasks`. -/
theorem queue_overflow_boundary_witness :
    submitRejects onSlotPoolConfig poolOnePending = true
    ∧ (applySubmit onSlotPoolConfig false poolOnePending).rejectedTasks
        = poolOnePending.rejectedTasks + 1
    ∧ (applySubmit onSlotPoolConfig false poolOnePending).submittedTasks
        = poolOnePending.submittedTasks
    ∧ (applySubmit onSlotPoolConfig false poolOnePending).queue
        = poolOnePending.queue
    ∧ (applySubmit onSlotPoolConfig false poolOnePending).items
        = poolOnePending.items := by
  have h := queue_overflow_boundary onSlotPoolConfig poolOnePending false
    (PoolReachable.step PoolReachable.init (PoolStep.submit initPool false))
  have hrej : submitRejects onSlotPoolConfig poolOnePending = true :=
    h.1.mpr (by decide)
  have heff := h.2.2.1 hrej
  exact ⟨hrej, heff.2.2.1, heff.2.2.2, heff.1, heff.2.1⟩

/-- C4 (amended): the success, backend-failure and cancelled counters
together count every settled task except those cancelled by shutdown
(which no counter records), and `timedOutTasks` counts the timeout
settlements, each of which is also counted in `cancelledTasks`; hence once
every admitted task has settled and none via shutdown, success + failure +
cancelled equals the number of admitted tasks, and the four-counter sum
equals admitted plus the number of timeouts — not admitted alone. -/
theorem counters_partition_settlements (cfg : PoolConfig) (s : PoolState)
    (h : PoolReachable cfg s) :
    s.completedTasks + s.failedTasks + s.cancelledTasks
        + resCount s SettlementKind.shutdownCancel = settledCount s
    ∧ s.timedOutTasks = resCount s SettlementKind.timeoutErr
    ∧ ((∀ it ∈ s.items, it.settled = true) →
        resCount s SettlementKind.shutdownCancel = 0 →
        s.completedTasks + s.failedTasks + s.cancelledTasks = s.submittedTasks
        ∧ s.completedTasks + s.failedTasks + s.cancelledTasks + s.timedOutTasks
            = s.submittedTasks + s.timedOutTasks) := by
  have hinv := poolInv_of_reachable cfg s h
  have hpart := settled_count_partition s.items hinv.items_inv
  have hc := hinv.completed_eq
  have hf := hinv.failed_eq
  have hca := hinv.cancelled_eq
  have ht := hinv.timedOut_eq
  have hsub := hinv.submitted_eq
  simp only [resCount, settledCount] at hc hf hca ht hpart ⊢
  refine ⟨by omega, by omega, ?_⟩
  intro hall hshut
  have hallc : s.items.countP (fun it => it.settled) = s.items.length :=
    List.countP_eq_length.mpr (fun a ha => by rw [hall a ha])
  constructor <;> omega

/-- Witness for C4's amended statement in the two-step run. -/
theorem counters_partition_witness :
    demoPoolTimed.completedTasks + demoPoolTimed.failedTasks
        + demoPoolTimed.cancelledTasks
        + resCount demoPoolTimed SettlementKind.shutdownCancel
      = settledCount demoPoolTimed
    ∧ demoPoolTimed.timedOutTasks = resCount demoPoolTimed SettlementKind.timeoutErr
    ∧ demoPoolTimed.completedTasks + demoPoolTimed.failedTasks
        + demoPoolTimed.cancelledTasks = demoPoolTimed.submittedTasks := by
  have h := counters_partition_settlements demoPoolConfig demoPoolTimed
    demoPoolTimed_reachable
  exact ⟨h.1, h.2.1, (h.2.2 (by decide) (by decide)).1⟩

/-- C4 counterexample: in a reachable run with one admitted task, settled
by timeout, the four outcome counters sum to 2 yet only one task was
admitted — the timeout was counted both in `timedOutTasks` and in
`cancelledTasks`, so the claimed sum-to-admitted equality fails. -/
theorem four_counter_sum_exceeds_admitted :
    PoolReachable demoPoolConfig demoPoolTimed
    ∧ demoPoolTimed.items = [demoTimedItem]
    ∧ demoTimedItem.settled = true
    ∧ demoPoolTimed.submittedTasks = 1
    ∧ demoPoolTimed.completedTasks + demoPoolTimed.failedTasks
        + demoPoolTimed.cancelledTasks + demoPoolTimed.timedOutTasks = 2
    ∧ ¬(demoPoolTimed.completedTasks + demoPoolTimed.failedTasks
        + demoPoolTimed.cancelledTasks + demoPoolTimed.timedOutTasks
          = demoPoolTimed.submittedTasks) :=
  ⟨demoPoolTimed_reachable, by decide, by decide, by decide, by decide, by decide⟩

end Ruvltra
